import Mathlib

/-!
Verification of the rhylthyme-cli-runner core against its specification.

The Python source is shallowly embedded: Python floats are modelled as
rationals (`ℚ`), Python dictionaries (which preserve insertion order) as
association lists, and Python `None` as `Option.none`.  Every definition
below is translated from a named function of the repository; the file/line
provenance is recorded in each doc comment.
-/

namespace Rhylthyme

/-- `StepStatus` enum from `program_runner.py` (class `StepStatus`). -/
inductive StepStatus where
  | pending
  | running
  | completed
  | waitingForManual
  | aborted
deriving DecidableEq, Repr

/-- `DurationType` enum from `program_runner.py` (class `DurationType`).
It is declared as `class DurationType(Enum)` — a plain `Enum`, not a
`str` mixin. -/
inductive DurationType where
  | fixed
  | variable
  | indefinite
deriving DecidableEq, Repr

/-- Python equality test between the value held in `Step.duration_type`
(which `Step.__init__` sets to `None` or to a `DurationType` enum member)
and a string literal.  Since `DurationType` is a plain `Enum` (not a
`str`-mixin), `DurationType.FIXED == "fixed"` evaluates to `False` in
Python, and `None == "fixed"` is also `False`; so this comparison is
`false` for every operand. -/
def durationTypePyEqStr : Option DurationType → String → Bool
  | none, _ => false
  | some _, _ => false

/-- The runtime fields of `Step` (class `Step` in `program_runner.py`)
that the runner's completion, trigger and admission logic reads.
`taskFractions` is the insertion-ordered dict `task name ↦ fraction`;
`startTriggerType`/`startTriggersTypes` hold the `type` fields of the
single trigger resp. the multi-trigger list. -/
structure StepR where
  stepId : String := ""
  status : StepStatus := .pending
  priority : Int := 100
  durationType : Option DurationType := none
  durationSeconds : Option ℚ := none
  minSeconds : Option ℚ := none
  maxSeconds : Option ℚ := none
  defaultSeconds : Option ℚ := none
  startTime : Option ℚ := none
  expectedEndTime : Option ℚ := none
  taskTypes : List String := []
  taskFractions : List (String × ℚ) := []
  startTriggerType : Option String := none
  startTriggersTypes : Option (List String) := none
deriving DecidableEq, Repr

/-- `Step.has_manual_trigger` (program_runner.py, lines 539-549): any of
the multi-triggers has type `"manual"`, else the single trigger does. -/
def hasManualTrigger (s : StepR) : Bool :=
  match s.startTriggersTypes with
  | some ts => ts.any (fun t => t == "manual")
  | none =>
    match s.startTriggerType with
    | some t => t == "manual"
    | none => false

/-- `Step.can_be_aborted` (program_runner.py, lines 353-355). -/
def canBeAborted (s : StepR) : Bool :=
  s.status == .running

/-- `Step.is_ready_to_complete` (program_runner.py, lines 449-469),
translated literally: the branches compare `self.duration_type` — an
enum member — against the strings `"fixed"`, `"variable"`,
`"indefinite"` (`durationTypePyEqStr`).  The float tolerance `0.05`
is the rational `1/20`. -/
def isReadyToComplete (s : StepR) (currentTime : ℚ) : Bool :=
  if s.status ≠ .running then false
  else if durationTypePyEqStr s.durationType "fixed" then
    match s.expectedEndTime with
    | none => false
    | some e => decide (currentTime ≥ e - 1/20)
  else if durationTypePyEqStr s.durationType "variable" then
    match s.startTime, s.minSeconds with
    | some st, some mn => decide (currentTime ≥ st + mn)
    | _, _ => false
  else if durationTypePyEqStr s.durationType "indefinite" then false
  else false

/-- `Step.get_remaining_time` (program_runner.py, lines 522-533):
`None` unless the step is RUNNING with an `expected_end_time`, else
`max(0, expected_end_time - current_time)`. -/
def getRemainingTime (s : StepR) (currentTime : ℚ) : Option ℚ :=
  if s.status ≠ .running then none
  else
    match s.expectedEndTime with
    | none => none
    | some e => some (max 0 (e - currentTime))

/-- Per-step completion decision of `ProgramRunner.complete_finished_steps`
(program_runner.py, lines 1050-1062): complete when
`is_ready_to_complete` holds, or (aggressive fallback) when the step is
RUNNING and its remaining time is below `0.1` seconds (`1/10`). -/
def tickCompletesStep (s : StepR) (currentTime : ℚ) : Bool :=
  isReadyToComplete s currentTime ||
    (s.status == .running &&
      match getRemainingTime s currentTime with
      | some r => decide (r < 1/10)
      | none => false)

/-- The completion predicate the specification states for Fixed steps:
`current_time ≥ expected_end − 0.05`.  Written from the spec sentence
for comparison with the source-derived `isReadyToComplete`. -/
def specFixedReady (s : StepR) (currentTime : ℚ) : Bool :=
  match s.expectedEndTime with
  | none => false
  | some e => decide (currentTime ≥ e - 1/20)

/-- A RUNNING Fixed-duration step: duration 5 s started at time 0.
Fields as `Step.__init__` + `Step.start` + the admission code of
`start_ready_steps` (which sets `expected_end_time` with a correct enum
comparison) would produce. -/
def fixedStep5 : StepR :=
  { stepId := "fixed5"
    status := .running
    durationType := some .fixed
    durationSeconds := some 5
    startTime := some 0
    expectedEndTime := some 5 }

/-- C2, code evaluation at the failing input.  For the RUNNING Fixed step
with `expected_end_time = 5`:
at `current_time = 4.96` (≥ 4.95, so the claim and the comment inside
`is_ready_to_complete` say the check fires) the check returns `false` —
the `duration_type == "fixed"` comparison matches an enum member against
a string and is always `False`; and at `current_time = 4.92`
(< 4.95, so the claim says the step is not yet completed) the tick
nevertheless completes the step through the `< 0.1 s` force-complete
fallback. -/
theorem c2_fixed_completion_check_dead :
    isReadyToComplete fixedStep5 (124/25) = false ∧
    specFixedReady fixedStep5 (124/25) = true ∧
    tickCompletesStep fixedStep5 (124/25) = true ∧
    specFixedReady fixedStep5 (123/25) = false ∧
    tickCompletesStep fixedStep5 (123/25) = true := by
  refine ⟨rfl, ?_, ?_, ?_, ?_⟩ <;>
    norm_num [specFixedReady, tickCompletesStep, isReadyToComplete,
      getRemainingTime, durationTypePyEqStr, fixedStep5]

/-- Program-finished test of `ProgramRunner.update` (program_runner.py,
line 893): execution stops iff **every** step has status COMPLETED. -/
def programFinishedCheck (steps : List StepR) : Bool :=
  steps.all (fun s => s.status == .completed)

/-- A COMPLETED step and an ABORTED step. -/
def completedStepC3 : StepR :=
  { stepId := "done", status := .completed }

/-- An ABORTED step used in the C3 counterexample. -/
def abortedStepC3 : StepR :=
  { stepId := "gone", status := .aborted }

/-- C3 counterexample: a program whose two steps are one Completed and
one Aborted — every step is in {Completed, Aborted} and at least one is
Aborted — is NOT marked finished by `update`: the check requires every
status to equal COMPLETED. -/
theorem c3_aborted_blocks_finish :
    completedStepC3.status = .completed ∧
    abortedStepC3.status = .aborted ∧
    programFinishedCheck [completedStepC3, abortedStepC3] = false := by
  refine ⟨rfl, rfl, rfl⟩

/-- C3 amended: after an update tick the program is marked finished iff
every step's status is Completed (an Aborted step prevents finishing). -/
theorem c3_finished_iff_all_completed (steps : List StepR) :
    programFinishedCheck steps = true ↔ ∀ s ∈ steps, s.status = .completed := by
  unfold programFinishedCheck
  rw [List.all_eq_true]
  constructor
  · intro h s hs
    have := h s hs
    simpa using this
  · intro h s hs
    simpa using h s hs

/-- Resulting status of a step processed by `ProgramRunner._trigger_step`
(program_runner.py, lines 1158-1174): PENDING with a manual trigger →
WAITING_FOR_MANUAL; RUNNING → if `can_be_aborted()` then ABORTED, else
if `duration_type` equals the string `"variable"` or `"indefinite"`
then COMPLETED; otherwise unchanged. -/
def triggerStepResultStatus (s : StepR) : StepStatus :=
  if s.status == .pending && hasManualTrigger s then .waitingForManual
  else if s.status == .running then
    if canBeAborted s then .aborted
    else if durationTypePyEqStr s.durationType "variable" ||
            durationTypePyEqStr s.durationType "indefinite" then .completed
    else s.status
  else s.status

/-- A RUNNING Variable-duration step (min 5 s, max 20 s, default 10 s,
manual trigger) that started at time 0. -/
def variableStepC5 : StepR :=
  { stepId := "var"
    status := .running
    durationType := some .variable
    minSeconds := some 5
    maxSeconds := some 20
    defaultSeconds := some 10
    startTime := some 0
    expectedEndTime := some 10
    startTriggerType := some "manual" }

/-- C5, code evaluation at the failing input: delivering a Trigger
command to this RUNNING Variable step *aborts* it — `can_be_aborted()`
is true for every RUNNING step, so the abort branch always wins and the
manual-completion branch of `_trigger_step` is unreachable (its
`duration_type == "variable"` comparison is moreover always `False`).
The claim — and the dead branch's own status message — say the step
should become COMPLETED. -/
theorem c5_trigger_aborts_running_variable_step :
    variableStepC5.status = .running ∧
    variableStepC5.durationType = some .variable ∧
    triggerStepResultStatus variableStepC5 = .aborted ∧
    triggerStepResultStatus variableStepC5 ≠ .completed := by
  refine ⟨rfl, rfl, rfl, by decide⟩

/-- Variable-duration extraction of `Step.__init__` (program_runner.py,
lines 159-181) viewed on the duration dict (numeric entries as `ℚ`):
`min_seconds = duration.get("minSeconds", 0)`,
`max_seconds = duration.get("maxSeconds", float("inf"))` — `none`
models the infinite default — and
`default_seconds = duration.get("defaultSeconds", (min+max)/2 if max <
inf else min + 60)`. -/
def varMinSeconds (dur : List (String × ℚ)) : ℚ :=
  (dur.lookup "minSeconds").getD 0

/-- `maxSeconds` of a variable duration: `none` is the `float("inf")`
default used when the key is absent. -/
def varMaxSeconds (dur : List (String × ℚ)) : Option ℚ :=
  dur.lookup "maxSeconds"

/-- `default_seconds` computed by `Step.__init__` for a variable
duration: the explicit `defaultSeconds` if present, else the midpoint
of min and max when max is finite, else `min + 60`. -/
def varDefaultSeconds (dur : List (String × ℚ)) : ℚ :=
  (dur.lookup "defaultSeconds").getD
    (match varMaxSeconds dur with
     | some mx => (varMinSeconds dur + mx) / 2
     | none => varMinSeconds dur + 60)

/-- C10: a Variable duration without `defaultSeconds` gets a silently
synthesized default — `(minSeconds + maxSeconds) / 2` when `maxSeconds`
is present, `minSeconds + 60` when it is absent; `Step.__init__` raises
no error in either case (the embedding is a total function). -/
theorem c10_variable_default_synthesized (mn mx : ℚ) :
    varDefaultSeconds [("minSeconds", mn), ("maxSeconds", mx)] = (mn + mx) / 2 ∧
    varDefaultSeconds [("minSeconds", mn)] = mn + 60 := by
  constructor <;> rfl

/-- C10 witness-style instantiation at concrete numbers: min 10, max 20
gives default 15; min 10 with no max gives default 70. -/
theorem c10_variable_default_synthesized_witness :
    varDefaultSeconds [("minSeconds", 10), ("maxSeconds", 20)] = 15 ∧
    varDefaultSeconds [("minSeconds", 10)] = 70 := by
  constructor <;>
    norm_num [varDefaultSeconds, varMinSeconds, varMaxSeconds, List.lookup,
      show ("defaultSeconds" == "minSeconds") = false from rfl,
      show ("defaultSeconds" == "maxSeconds") = false from rfl,
      show ("maxSeconds" == "minSeconds") = false from rfl]

/-- Candidate collection of `ProgramRunner.start_ready_steps`
(program_runner.py, lines 926-930): the steps whose status is PENDING,
kept in the iteration order of `self.steps.values()` — the order the
step definitions appear in the program. -/
def pendingCandidates (steps : List StepR) : List StepR :=
  steps.filter (fun s => s.status == .pending)

/-- One insertion of the stable sort modelling
`pending_steps.sort(key=lambda s: s.priority)` (program_runner.py,
line 930).  Python's `list.sort` is stable; a stable sort is modelled
by inserting each element before the first element of strictly greater
key, after all elements of smaller-or-equal key. -/
def insertByPriority (x : StepR) : List StepR → List StepR
  | [] => [x]
  | y :: ys =>
    if x.priority ≤ y.priority then x :: y :: ys
    else y :: insertByPriority x ys

/-- Stable sort by the `priority` field (ascending), modelling
`pending_steps.sort(key=lambda s: s.priority)`. -/
def sortByPriority : List StepR → List StepR
  | [] => []
  | x :: xs => insertByPriority x (sortByPriority xs)

/-- The order in which `start_ready_steps` attempts admission:
the PENDING steps in definition order, stably sorted by priority. -/
def attemptOrder (steps : List StepR) : List StepR :=
  sortByPriority (pendingCandidates steps)

theorem mem_insertByPriority {x z : StepR} {l : List StepR} :
    z ∈ insertByPriority x l ↔ z = x ∨ z ∈ l := by
  induction l with
  | nil => simp [insertByPriority]
  | cons y ys ih =>
    by_cases h : x.priority ≤ y.priority
    · simp [insertByPriority, h]
    · simp [insertByPriority, h, ih]
      tauto

theorem pairwise_insertByPriority {x : StepR} {l : List StepR}
    (hl : l.Pairwise (fun a b => a.priority ≤ b.priority)) :
    (insertByPriority x l).Pairwise (fun a b => a.priority ≤ b.priority) := by
  induction l with
  | nil => simp [insertByPriority]
  | cons y ys ih =>
    rcases List.pairwise_cons.mp hl with ⟨hy, hys⟩
    by_cases h : x.priority ≤ y.priority
    · simp only [insertByPriority, if_pos h]
      refine List.pairwise_cons.mpr ⟨?_, hl⟩
      intro z hz
      rcases List.mem_cons.mp hz with rfl | hz
      · exact h
      · exact le_trans h (hy z hz)
    · simp only [insertByPriority, if_neg h]
      refine List.pairwise_cons.mpr ⟨?_, ih hys⟩
      intro z hz
      rcases mem_insertByPriority.mp hz with rfl | hz
      · exact le_of_not_le h
      · exact hy z hz

theorem pairwise_sortByPriority (l : List StepR) :
    (sortByPriority l).Pairwise (fun a b => a.priority ≤ b.priority) := by
  induction l with
  | nil => simp [sortByPriority]
  | cons x xs ih => exact pairwise_insertByPriority ih

theorem filter_insertByPriority (x : StepR) (l : List StepR) (p : ℤ) :
    (insertByPriority x l).filter (fun s => s.priority == p) =
      if x.priority == p then x :: l.filter (fun s => s.priority == p)
      else l.filter (fun s => s.priority == p) := by
  induction l with
  | nil =>
    by_cases hx : x.priority = p <;>
      simp [insertByPriority, List.filter_cons, beq_iff_eq, hx]
  | cons y ys ih =>
    by_cases h : x.priority ≤ y.priority
    · simp only [insertByPriority, if_pos h]
      by_cases hy : y.priority = p <;>
        by_cases hx : x.priority = p <;>
          simp [List.filter_cons, beq_iff_eq, hx, hy]
    · simp only [insertByPriority, if_neg h]
      by_cases hy : y.priority = p
      · have hx : ¬ x.priority = p := fun hxp => h (le_of_eq (hxp.trans hy.symm))
        simp [List.filter_cons, beq_iff_eq, hx, hy, ih]
      · by_cases hx : x.priority = p <;>
          simp [List.filter_cons, beq_iff_eq, hx, hy, ih]

theorem filter_sortByPriority (l : List StepR) (p : ℤ) :
    (sortByPriority l).filter (fun s => s.priority == p) =
      l.filter (fun s => s.priority == p) := by
  induction l with
  | nil => rfl
  | cons x xs ih =>
    by_cases hx : x.priority = p <;>
      simp [sortByPriority, filter_insertByPriority, List.filter_cons,
        beq_iff_eq, hx, ih]

/-- C6: in the admission phase, candidates are attempted in ascending
priority order (the attempt order is pairwise `≤` on `priority`), and
for every priority value `p` the subsequence of candidates having that
priority is exactly the subsequence of the PENDING steps in program
definition order — identical-priority candidates keep their
definition-order relative positions (Python's `list.sort` is stable). -/
theorem c6_admission_priority_order (steps : List StepR) :
    (attemptOrder steps).Pairwise (fun a b => a.priority ≤ b.priority) ∧
    ∀ p : ℤ, (attemptOrder steps).filter (fun s => s.priority == p) =
      (pendingCandidates steps).filter (fun s => s.priority == p) := by
  exact ⟨pairwise_sortByPriority _, fun p => filter_sortByPriority _ p⟩

/-- The constraint tables `ProgramRunner.__init__` builds (program_runner.py,
lines 622-691): per-task `max_concurrent`, per-task `actors_required`,
per-task qualified actor types, and per-actor-type capacity.  All four are
insertion-ordered Python dicts, modelled as association lists. -/
structure RunnerConfig where
  resourceConstraints : List (String × ℚ)
  actorRequirements : List (String × ℚ)
  qualifiedActorTypes : List (String × List String)
  actorTypes : List (String × ℚ)
deriving DecidableEq, Repr

/-- The mutable occupancy state of the runner: `resource_usage` and
`actor_usage_by_type`, as total maps (entries absent from the Python
dicts read as `0.0` via `.get(…, 0.0)`). -/
structure ResState where
  resourceUsage : String → ℚ
  actorUsageByType : String → ℚ

/-- `step.task_fractions.get(task_type, 1.0)`. -/
def getFraction (s : StepR) (t : String) : ℚ :=
  (s.taskFractions.lookup t).getD 1

/-- Pointwise dict update `d[k] = d.get(k, …) + v`. -/
def updAdd (u : String → ℚ) (k : String) (v : ℚ) : String → ℚ :=
  fun x => if x = k then u x + v else u x

/-- Pointwise dict update `d[k] = max(0.0, d.get(k, 0.0) - v)` — the
clamped decrement used by `complete_step` and `abort_step`. -/
def updClampSub (u : String → ℚ) (k : String) (v : ℚ) : String → ℚ :=
  fun x => if x = k then max 0 (u x - v) else u x

/-- Add `v` to key `k` of an insertion-ordered accumulator dict
(`required_actors_by_type` / `freed_actors_by_type` in the source),
appending the key when absent. -/
def bumpAssoc (m : List (String × ℚ)) (k : String) (v : ℚ) :
    List (String × ℚ) :=
  match m with
  | [] => [(k, v)]
  | (k2, v2) :: rest =>
    if k2 = k then (k2, v2 + v) :: rest else (k2, v2) :: bumpAssoc rest k v

/-- Actor-type selection of the admission loop (program_runner.py,
lines 962-989): walk the qualified types, skip those not in
`self.actor_types`, compute
`available = count - current_usage - pending_usage`, and keep the type
with the greatest available capacity among those with
`available ≥ actors_required` (strictly-greater update, initial best
capacity `0`). -/
def findBestActorType (cfg : RunnerConfig) (st : ResState)
    (pending : List (String × ℚ)) (required : ℚ) :
    List String → Option String → ℚ → Option String
  | [], best, _ => best
  | a :: rest, best, bestAvail =>
    match cfg.actorTypes.lookup a with
    | none => findBestActorType cfg st pending required rest best bestAvail
    | some total =>
      if required ≤ total - st.actorUsageByType a - ((pending.lookup a).getD 0) ∧
          bestAvail < total - st.actorUsageByType a - ((pending.lookup a).getD 0) then
        findBestActorType cfg st pending required rest (some a)
          (total - st.actorUsageByType a - ((pending.lookup a).getD 0))
      else findBestActorType cfg st pending required rest best bestAvail

/-- The per-task admission checks of `start_ready_steps`
(program_runner.py, lines 940-994): tasks without a declared constraint
are skipped entirely; a constrained task is rejected when
`usage + fraction > max_concurrent`, when it has no qualified actor
types, or when no qualified type has enough free capacity; on success
the actors are added to the pending reservation accumulator.  Returns
`none` when `can_start` becomes `False`, else the accumulated
`required_actors_by_type`. -/
def checkTasks (cfg : RunnerConfig) (st : ResState) (s : StepR) :
    List String → List (String × ℚ) → Option (List (String × ℚ))
  | [], pending => some pending
  | t :: rest, pending =>
    match cfg.resourceConstraints.lookup t with
    | none => checkTasks cfg st s rest pending
    | some maxC =>
      if maxC < st.resourceUsage t + getFraction s t then none
      else if ((cfg.qualifiedActorTypes.lookup t).getD []).isEmpty then none
      else
        match findBestActorType cfg st pending
            (((cfg.actorRequirements.lookup t).getD 1) * getFraction s t)
            ((cfg.qualifiedActorTypes.lookup t).getD []) none 0 with
        | none => none
        | some best =>
          checkTasks cfg st s rest
            (bumpAssoc pending best
              (((cfg.actorRequirements.lookup t).getD 1) * getFraction s t))

/-- The commit loop of `start_ready_steps` (program_runner.py,
lines 997-1003): add each constrained task's fraction to
`resource_usage`. -/
def commitTasks (cfg : RunnerConfig) (s : StepR) :
    List String → (String → ℚ) → (String → ℚ)
  | [], u => u
  | t :: rest, u =>
    match cfg.resourceConstraints.lookup t with
    | none => commitTasks cfg s rest u
    | some _ => commitTasks cfg s rest (updAdd u t (getFraction s t))

/-- The actor commit loop of `start_ready_steps` (program_runner.py,
lines 1005-1011): add each pending reservation to
`actor_usage_by_type`. -/
def commitActors : List (String × ℚ) → (String → ℚ) → (String → ℚ)
  | [], u => u
  | (a, v) :: rest, u => commitActors rest (updAdd u a v)

/-- All-or-nothing admission of one step: commit both usage tables only
when every per-task check of `checkTasks` passed. -/
def admitStep (cfg : RunnerConfig) (st : ResState) (s : StepR) : ResState :=
  match checkTasks cfg st s s.taskTypes [] with
  | none => st
  | some pending =>
    { resourceUsage := commitTasks cfg s s.taskTypes st.resourceUsage
      actorUsageByType := commitActors pending st.actorUsageByType }

/-- The "which actor type was actually used" heuristic of
`complete_step`/`abort_step` (program_runner.py, lines 1085-1094 and
1206-1215): among the task's qualified types present in
`actor_usage_by_type`, pick the one with the highest *current* usage
(strictly-greater update, initial best usage `0`; first wins on ties).
Note: this is a heuristic — it need not be the type admission charged. -/
def findUsedActorType (cfg : RunnerConfig) (st : ResState) :
    List String → Option String → ℚ → Option String
  | [], best, _ => best
  | a :: rest, best, bestU =>
    if (cfg.actorTypes.lookup a).isSome then
      if bestU < st.actorUsageByType a then
        findUsedActorType cfg st rest (some a) (st.actorUsageByType a)
      else findUsedActorType cfg st rest best bestU
    else findUsedActorType cfg st rest best bestU

/-- The release loop shared by `complete_step` and `abort_step`
(program_runner.py, lines 1073-1099 / 1194-1220): for each constrained
task, clamp-decrement `resource_usage` by the fraction and accumulate
`actors_required · fraction` against the actor type selected by
`findUsedActorType` (selection reads the pre-release usage; the frees
are applied only after the loop). -/
def releaseTasks (cfg : RunnerConfig) (st : ResState) (s : StepR) :
    List String → (String → ℚ) → List (String × ℚ) →
      ((String → ℚ) × List (String × ℚ))
  | [], u, freed => (u, freed)
  | t :: rest, u, freed =>
    match cfg.resourceConstraints.lookup t with
    | none => releaseTasks cfg st s rest u freed
    | some _ =>
      match findUsedActorType cfg st
          ((cfg.qualifiedActorTypes.lookup t).getD []) none 0 with
      | none =>
        releaseTasks cfg st s rest (updClampSub u t (getFraction s t)) freed
      | some best =>
        releaseTasks cfg st s rest (updClampSub u t (getFraction s t))
          (bumpAssoc freed best
            (((cfg.actorRequirements.lookup t).getD 1) * getFraction s t))

/-- Applying the accumulated frees to `actor_usage_by_type`
(program_runner.py, lines 1101-1106 / 1222-1227):
`usage[a] = max(0.0, usage[a] - amount)`. -/
def applyFreed : List (String × ℚ) → (String → ℚ) → (String → ℚ)
  | [], u => u
  | (a, v) :: rest, u => applyFreed rest (updClampSub u a v)

/-- Resource/actor effect of completing or aborting a step. -/
def releaseStep (cfg : RunnerConfig) (st : ResState) (s : StepR) : ResState :=
  { resourceUsage := (releaseTasks cfg st s s.taskTypes st.resourceUsage []).1
    actorUsageByType :=
      applyFreed (releaseTasks cfg st s s.taskTypes st.resourceUsage []).2
        st.actorUsageByType }

/-- The occupancy-relevant events of a run: an admission attempt in
`start_ready_steps`, a `complete_step`, or an `abort_step`. -/
inductive REvent where
  | reserve (s : StepR)
  | complete (s : StepR)
  | abortStep (s : StepR)

/-- The step an event concerns. -/
def eventStep : REvent → StepR
  | .reserve s => s
  | .complete s => s
  | .abortStep s => s

/-- Effect of one event on the occupancy state. -/
def applyEvent (cfg : RunnerConfig) (st : ResState) : REvent → ResState
  | .reserve s => admitStep cfg st s
  | .complete s => releaseStep cfg st s
  | .abortStep s => releaseStep cfg st s

/-- Initial occupancy: every `resource_usage` and `actor_usage_by_type`
entry starts at `0.0` (program_runner.py, lines 643, 663, 671, 684). -/
def initialResState : ResState :=
  { resourceUsage := fun _ => 0, actorUsageByType := fun _ => 0 }

/-- Run a sequence of admissions/completions/aborts from the initial
state. -/
def runEvents (cfg : RunnerConfig) (events : List REvent) : ResState :=
  events.foldl (applyEvent cfg) initialResState

/-- Well-formedness `Step.__init__` guarantees for every constructed
step: `task_types` holds no duplicates (the constructor guards every
insertion with `if task not in self.task_types`) and every declared
fraction is non-negative. -/
def StepWF (s : StepR) : Prop :=
  s.taskTypes.Nodup ∧ ∀ p ∈ s.taskFractions, 0 ≤ p.2

instance (s : StepR) : Decidable (StepWF s) := by
  unfold StepWF
  infer_instance

/-- Configuration for the C4 counterexample: tasks `t1` (qualified
actor types `[A]`) and `t2` (qualified `[A, B]`), both with
`max_concurrent 1` and `actors_required 1`; actor type `A` has count 2
and `B` has count 3. -/
def cfg4 : RunnerConfig :=
  { resourceConstraints := [("t1", 1), ("t2", 1)]
    actorRequirements := [("t1", 1), ("t2", 1)]
    qualifiedActorTypes := [("t1", ["A"]), ("t2", ["A", "B"])]
    actorTypes := [("A", 2), ("B", 3)] }

/-- Step consuming task `t1` at fraction 1. -/
def stepX : StepR :=
  { stepId := "X", taskTypes := ["t1"], taskFractions := [("t1", 1)] }

/-- Step consuming task `t2` at fraction 1. -/
def stepY : StepR :=
  { stepId := "Y", taskTypes := ["t2"], taskFractions := [("t2", 1)] }

/-- C4 counterexample.  Admit `X` (charges actor type `A`, the only
type qualified for `t1`), then admit `Y` — its admission charges `B`
(the qualified type with the greater remaining capacity: `A` has
2−1 = 1 free, `B` has 3 free), leaving `A` untouched.  Completing `Y`
then frees `A`, not `B`: the release heuristic picks the qualified
type with the highest current usage, and with `A` and `B` both at 1 the
tie goes to `A` (first in list order).  So release decrements a counter
admission never incremented and leaves the charged counter `B`
unchanged. -/
theorem c4_release_frees_wrong_actor_type :
    (runEvents cfg4 [.reserve stepX]).actorUsageByType "A" = 1 ∧
    (runEvents cfg4 [.reserve stepX]).actorUsageByType "B" = 0 ∧
    (runEvents cfg4 [.reserve stepX, .reserve stepY]).actorUsageByType "A" = 1 ∧
    (runEvents cfg4 [.reserve stepX, .reserve stepY]).actorUsageByType "B" = 1 ∧
    (runEvents cfg4 [.reserve stepX, .reserve stepY,
        .complete stepY]).actorUsageByType "A" = 0 ∧
    (runEvents cfg4 [.reserve stepX, .reserve stepY,
        .complete stepY]).actorUsageByType "B" = 1 := by
  have hBA : ¬ ("B" : String) = "A" := by decide
  have hAB : ¬ ("A" : String) = "B" := by decide
  have h21 : ¬ ("t2" : String) = "t1" := by decide
  have h12 : ¬ ("t1" : String) = "t2" := by decide
  refine ⟨?_, ?_, ?_, ?_, ?_, ?_⟩ <;>
    norm_num [runEvents, applyEvent, admitStep, releaseStep, checkTasks,
      findBestActorType, findUsedActorType, commitTasks, commitActors,
      releaseTasks, applyFreed, bumpAssoc, updAdd, updClampSub, getFraction,
      initialResState, cfg4, stepX, stepY, List.lookup, hBA, hAB, h21, h12,
      show ("t2" == "t1") = false from rfl,
      show ("t1" == "t2") = false from rfl,
      show ("B" == "A") = false from rfl,
      show ("A" == "B") = false from rfl]

/-- All actor types qualified for at least one of the step's tasks. -/
def stepQualifiedTypes (cfg : RunnerConfig) (s : StepR) : List String :=
  s.taskTypes.flatMap (fun t => (cfg.qualifiedActorTypes.lookup t).getD [])

theorem lookup_some_mem {β : Type} {l : List (String × β)} {k : String} {v : β}
    (h : l.lookup k = some v) : (k, v) ∈ l := by
  induction l with
  | nil => simp [List.lookup] at h
  | cons p rest ih =>
    obtain ⟨k2, v2⟩ := p
    simp only [List.lookup] at h
    by_cases hk : k = k2
    · subst hk
      simp only [beq_self_eq_true] at h
      injection h with h
      subst h
      exact List.mem_cons_self _ _
    · rw [show (k == k2) = false from beq_eq_false_iff_ne.mpr hk] at h
      exact List.mem_cons_of_mem _ (ih h)

theorem getFraction_nonneg {s : StepR} (hfr : ∀ p ∈ s.taskFractions, 0 ≤ p.2)
    (t : String) : 0 ≤ getFraction s t := by
  unfold getFraction
  cases h : s.taskFractions.lookup t with
  | none => norm_num
  | some v => exact hfr (t, v) (lookup_some_mem h)

theorem bumpAssoc_mem_prop {L : List String} {k : String} {v : ℚ} :
    ∀ {m : List (String × ℚ)},
      (∀ p ∈ m, p.1 ∈ L ∧ 0 ≤ p.2) → k ∈ L → 0 ≤ v →
      ∀ p ∈ bumpAssoc m k v, p.1 ∈ L ∧ 0 ≤ p.2 := by
  intro m
  induction m with
  | nil =>
    intro _ hk hv p hp
    simp only [bumpAssoc, List.mem_singleton] at hp
    subst hp
    exact ⟨hk, hv⟩
  | cons q rest ih =>
    intro hm hk hv p hp
    obtain ⟨k2, v2⟩ := q
    simp only [bumpAssoc] at hp
    by_cases hkk : k2 = k
    · rw [if_pos hkk] at hp
      rcases List.mem_cons.mp hp with rfl | hp
      · have := hm (k2, v2) (List.mem_cons_self _ _)
        exact ⟨this.1, add_nonneg this.2 hv⟩
      · exact hm p (List.mem_cons_of_mem _ hp)
    · rw [if_neg hkk] at hp
      rcases List.mem_cons.mp hp with rfl | hp
      · exact hm (k2, v2) (List.mem_cons_self _ _)
      · exact ih (fun q hq => hm q (List.mem_cons_of_mem _ hq)) hk hv p hp

theorem findUsedActorType_mem (cfg : RunnerConfig) (st : ResState) :
    ∀ (l : List String) (best : Option String) (bu : ℚ) (a : String),
      findUsedActorType cfg st l best bu = some a → a ∈ l ∨ best = some a := by
  intro l
  induction l with
  | nil =>
    intro best bu a h
    exact Or.inr h
  | cons b rest ih =>
    intro best bu a h
    simp only [findUsedActorType] at h
    by_cases h1 : (cfg.actorTypes.lookup b).isSome
    · rw [if_pos h1] at h
      by_cases h2 : bu < st.actorUsageByType b
      · rw [if_pos h2] at h
        rcases ih _ _ _ h with hmem | hbest
        · exact Or.inl (List.mem_cons_of_mem _ hmem)
        · injection hbest with hb
          exact Or.inl (hb ▸ List.mem_cons_self _ _)
      · rw [if_neg h2] at h
        rcases ih _ _ _ h with hmem | hbest
        · exact Or.inl (List.mem_cons_of_mem _ hmem)
        · exact Or.inr hbest
    · rw [if_neg h1] at h
      rcases ih _ _ _ h with hmem | hbest
      · exact Or.inl (List.mem_cons_of_mem _ hmem)
      · exact Or.inr hbest

theorem releaseTasks_freed_mem (cfg : RunnerConfig) (st : ResState) (s : StepR)
    (hreq : ∀ p ∈ cfg.actorRequirements, 0 ≤ p.2)
    (hfr : ∀ p ∈ s.taskFractions, 0 ≤ p.2) :
    ∀ (tasks : List String), (∀ t ∈ tasks, t ∈ s.taskTypes) →
      ∀ (u : String → ℚ) (freed : List (String × ℚ)),
        (∀ p ∈ freed, p.1 ∈ stepQualifiedTypes cfg s ∧ 0 ≤ p.2) →
        ∀ p ∈ (releaseTasks cfg st s tasks u freed).2,
          p.1 ∈ stepQualifiedTypes cfg s ∧ 0 ≤ p.2 := by
  intro tasks
  induction tasks with
  | nil =>
    intro _ u freed hfreed p hp
    exact hfreed p hp
  | cons t rest ih =>
    intro hsub u freed hfreed p hp
    have hts : t ∈ s.taskTypes := hsub t (List.mem_cons_self _ _)
    have hsub2 : ∀ t2 ∈ rest, t2 ∈ s.taskTypes :=
      fun t2 ht2 => hsub t2 (List.mem_cons_of_mem _ ht2)
    simp only [releaseTasks] at hp
    cases hc : cfg.resourceConstraints.lookup t with
    | none =>
      rw [hc] at hp
      exact ih hsub2 u freed hfreed p hp
    | some mC =>
      rw [hc] at hp
      cases hb : findUsedActorType cfg st
          ((cfg.qualifiedActorTypes.lookup t).getD []) none 0 with
      | none =>
        rw [hb] at hp
        exact ih hsub2 _ freed hfreed p hp
      | some best =>
        rw [hb] at hp
        have hbq : best ∈ (cfg.qualifiedActorTypes.lookup t).getD [] := by
          rcases findUsedActorType_mem cfg st _ none 0 best hb with h | h
          · exact h
          · exact absurd h (by simp)
        have hbmem : best ∈ stepQualifiedTypes cfg s := by
          unfold stepQualifiedTypes
          exact List.mem_flatMap.mpr ⟨t, hts, hbq⟩
        have hv : 0 ≤ ((cfg.actorRequirements.lookup t).getD 1) * getFraction s t := by
          apply mul_nonneg
          · cases hr : cfg.actorRequirements.lookup t with
            | none => norm_num
            | some r => exact hreq (t, r) (lookup_some_mem hr)
          · exact getFraction_nonneg hfr t
        exact ih hsub2 _ _ (bumpAssoc_mem_prop hfreed hbmem hv) p hp

theorem applyFreed_not_mem :
    ∀ (freed : List (String × ℚ)) (u : String → ℚ) (a : String),
      (∀ p ∈ freed, p.1 ≠ a) → applyFreed freed u a = u a := by
  intro freed
  induction freed with
  | nil => intro u a _; rfl
  | cons q rest ih =>
    intro u a hq
    obtain ⟨k, v⟩ := q
    have hk : k ≠ a := hq (k, v) (List.mem_cons_self _ _)
    simp only [applyFreed]
    rw [ih _ a (fun p hp => hq p (List.mem_cons_of_mem _ hp))]
    have hak : ¬ a = k := fun h => hk h.symm
    simp [updClampSub, hak]

theorem applyFreed_le :
    ∀ (freed : List (String × ℚ)) (u : String → ℚ) (a : String),
      (∀ p ∈ freed, 0 ≤ p.2) → 0 ≤ u a →
      applyFreed freed u a ≤ u a ∧ 0 ≤ applyFreed freed u a := by
  intro freed
  induction freed with
  | nil => intro u a _ h0; exact ⟨le_refl _, h0⟩
  | cons q rest ih =>
    intro u a hq h0
    obtain ⟨k, v⟩ := q
    have hv : 0 ≤ v := hq (k, v) (List.mem_cons_self _ _)
    have step1 : updClampSub u k v a ≤ u a ∧ 0 ≤ updClampSub u k v a := by
      unfold updClampSub
      by_cases hak : a = k
      · rw [if_pos hak]
        exact ⟨max_le h0 (sub_le_self _ hv), le_max_left _ _⟩
      · rw [if_neg hak]
        exact ⟨le_refl _, h0⟩
    have := ih (updClampSub u k v) a
      (fun p hp => hq p (List.mem_cons_of_mem _ hp)) step1.2
    exact ⟨le_trans this.1 step1.1, this.2⟩

/-- C4 amended: releasing a step on completion or abort touches only
actor types qualified for one of the step's constrained tasks (the
chosen type is the qualified one with highest current usage, which
need not be the type admission charged); no actor-type counter ever
increases at release, and none is driven below zero. -/
theorem c4_release_actor_frame (cfg : RunnerConfig) (st : ResState) (s : StepR)
    (hreq : ∀ p ∈ cfg.actorRequirements, 0 ≤ p.2)
    (hfr : ∀ p ∈ s.taskFractions, 0 ≤ p.2) (a : String) :
    (a ∉ stepQualifiedTypes cfg s →
      (releaseStep cfg st s).actorUsageByType a = st.actorUsageByType a) ∧
    (0 ≤ st.actorUsageByType a →
      (releaseStep cfg st s).actorUsageByType a ≤ st.actorUsageByType a ∧
      0 ≤ (releaseStep cfg st s).actorUsageByType a) := by
  have hfreed := releaseTasks_freed_mem cfg st s hreq hfr s.taskTypes
    (fun t ht => ht) st.resourceUsage [] (by simp)
  constructor
  · intro ha
    exact applyFreed_not_mem _ _ _
      (fun p hp hpa => ha (hpa ▸ (hfreed p hp).1))
  · intro h0
    exact applyFreed_le _ _ _ (fun p hp => (hfreed p hp).2) h0

/-- Witness for `c4_release_actor_frame` at the concrete configuration
of the counterexample and the unqualified actor type `C`. -/
theorem c4_release_actor_frame_witness :
    (¬ "C" ∈ stepQualifiedTypes cfg4 stepY →
      (releaseStep cfg4 initialResState stepY).actorUsageByType "C" =
        initialResState.actorUsageByType "C") ∧
    (0 ≤ initialResState.actorUsageByType "C" →
      (releaseStep cfg4 initialResState stepY).actorUsageByType "C" ≤
        initialResState.actorUsageByType "C" ∧
      0 ≤ (releaseStep cfg4 initialResState stepY).actorUsageByType "C") :=
  c4_release_actor_frame cfg4 initialResState stepY (by decide) (by decide) "C"

/-- The C1 invariant: every constrained task's usage lies in
`[0, max_concurrent]`. -/
def ResInv (cfg : RunnerConfig) (u : String → ℚ) : Prop :=
  ∀ t m, cfg.resourceConstraints.lookup t = some m → 0 ≤ u t ∧ u t ≤ m

theorem checkTasks_le (cfg : RunnerConfig) (st : ResState) (s : StepR) :
    ∀ (tasks : List String) (pending res : List (String × ℚ)),
      checkTasks cfg st s tasks pending = some res →
      ∀ t ∈ tasks, ∀ m, cfg.resourceConstraints.lookup t = some m →
        st.resourceUsage t + getFraction s t ≤ m := by
  intro tasks
  induction tasks with
  | nil =>
    intro pending res _ t ht
    simp at ht
  | cons t2 rest ih =>
    intro pending res h t ht m hm
    simp only [checkTasks] at h
    rcases List.mem_cons.mp ht with rfl | htr
    · rw [hm] at h
      dsimp only at h
      by_cases hlt : m < st.resourceUsage t + getFraction s t
      · rw [if_pos hlt] at h
        exact absurd h (by simp)
      · exact le_of_not_lt hlt
    · cases hc : cfg.resourceConstraints.lookup t2 with
      | none =>
        rw [hc] at h
        exact ih pending res h t htr m hm
      | some maxC =>
        rw [hc] at h
        dsimp only at h
        by_cases hlt : maxC < st.resourceUsage t2 + getFraction s t2
        · rw [if_pos hlt] at h
          exact absurd h (by simp)
        · rw [if_neg hlt] at h
          by_cases hemp : ((cfg.qualifiedActorTypes.lookup t2).getD []).isEmpty
          · rw [if_pos hemp] at h
            exact absurd h (by simp)
          · rw [if_neg hemp] at h
            cases hb : findBestActorType cfg st pending
                (((cfg.actorRequirements.lookup t2).getD 1) * getFraction s t2)
                ((cfg.qualifiedActorTypes.lookup t2).getD []) none 0 with
            | none =>
              rw [hb] at h
              exact absurd h (by simp)
            | some best =>
              rw [hb] at h
              exact ih _ res h t htr m hm

theorem commitTasks_not_mem (cfg : RunnerConfig) (s : StepR) :
    ∀ (tasks : List String) (u : String → ℚ) (t : String),
      t ∉ tasks → commitTasks cfg s tasks u t = u t := by
  intro tasks
  induction tasks with
  | nil => intro u t _; rfl
  | cons t2 rest ih =>
    intro u t ht
    have ht2 : ¬ t = t2 := fun h => ht (h ▸ List.mem_cons_self t2 rest)
    have htr : t ∉ rest := fun h => ht (List.mem_cons_of_mem _ h)
    simp only [commitTasks]
    cases hc : cfg.resourceConstraints.lookup t2 with
    | none => exact ih u t htr
    | some mC =>
      dsimp only
      rw [ih (updAdd u t2 (getFraction s t2)) t htr]
      simp [updAdd, ht2]

theorem commitTasks_mem (cfg : RunnerConfig) (s : StepR) :
    ∀ (tasks : List String) (u : String → ℚ) (t : String),
      t ∈ tasks → tasks.Nodup →
      ∀ mC, cfg.resourceConstraints.lookup t = some mC →
      commitTasks cfg s tasks u t = u t + getFraction s t := by
  intro tasks
  induction tasks with
  | nil =>
    intro u t ht
    simp at ht
  | cons t2 rest ih =>
    intro u t ht hnd mC hm
    rcases List.mem_cons.mp ht with rfl | htr
    · have htr : t ∉ rest := (List.nodup_cons.mp hnd).1
      simp only [commitTasks]
      rw [hm]
      dsimp only
      rw [commitTasks_not_mem cfg s rest _ t htr]
      simp [updAdd]
    · have ht2 : ¬ t = t2 :=
        fun h => (List.nodup_cons.mp hnd).1 (h ▸ htr)
      simp only [commitTasks]
      cases hc : cfg.resourceConstraints.lookup t2 with
      | none => exact ih u t htr (List.nodup_cons.mp hnd).2 mC hm
      | some mC2 =>
        dsimp only
        rw [ih (updAdd u t2 (getFraction s t2)) t htr
          (List.nodup_cons.mp hnd).2 mC hm]
        simp [updAdd, ht2]

theorem releaseTasks_fst_not_mem (cfg : RunnerConfig) (st : ResState) (s : StepR) :
    ∀ (tasks : List String) (u : String → ℚ) (freed : List (String × ℚ))
      (t : String), t ∉ tasks → (releaseTasks cfg st s tasks u freed).1 t = u t := by
  intro tasks
  induction tasks with
  | nil => intro u freed t _; rfl
  | cons t2 rest ih =>
    intro u freed t ht
    have ht2 : ¬ t = t2 := fun h => ht (h ▸ List.mem_cons_self t2 rest)
    have htr : t ∉ rest := fun h => ht (List.mem_cons_of_mem _ h)
    simp only [releaseTasks]
    cases hc : cfg.resourceConstraints.lookup t2 with
    | none => exact ih u freed t htr
    | some mC =>
      cases hb : findUsedActorType cfg st
          ((cfg.qualifiedActorTypes.lookup t2).getD []) none 0 with
      | none =>
        rw [ih _ freed t htr]
        simp [updClampSub, ht2]
      | some best =>
        rw [ih _ _ t htr]
        simp [updClampSub, ht2]

theorem releaseTasks_fst_mem (cfg : RunnerConfig) (st : ResState) (s : StepR) :
    ∀ (tasks : List String) (u : String → ℚ) (freed : List (String × ℚ))
      (t : String), t ∈ tasks → tasks.Nodup →
      ∀ mC, cfg.resourceConstraints.lookup t = some mC →
      (releaseTasks cfg st s tasks u freed).1 t =
        max 0 (u t - getFraction s t) := by
  intro tasks
  induction tasks with
  | nil =>
    intro u freed t ht
    simp at ht
  | cons t2 rest ih =>
    intro u freed t ht hnd mC hm
    rcases List.mem_cons.mp ht with rfl | htr
    · have htr : t ∉ rest := (List.nodup_cons.mp hnd).1
      simp only [releaseTasks]
      rw [hm]
      cases hb : findUsedActorType cfg st
          ((cfg.qualifiedActorTypes.lookup t).getD []) none 0 with
      | none =>
        rw [releaseTasks_fst_not_mem cfg st s rest _ freed t htr]
        simp [updClampSub]
      | some best =>
        rw [releaseTasks_fst_not_mem cfg st s rest _ _ t htr]
        simp [updClampSub]
    · have ht2 : ¬ t = t2 :=
        fun h => (List.nodup_cons.mp hnd).1 (h ▸ htr)
      simp only [releaseTasks]
      cases hc : cfg.resourceConstraints.lookup t2 with
      | none => exact ih u freed t htr (List.nodup_cons.mp hnd).2 mC hm
      | some mC2 =>
        cases hb : findUsedActorType cfg st
            ((cfg.qualifiedActorTypes.lookup t2).getD []) none 0 with
        | none =>
          rw [ih _ freed t htr (List.nodup_cons.mp hnd).2 mC hm]
          simp [updClampSub, ht2]
        | some best =>
          rw [ih _ _ t htr (List.nodup_cons.mp hnd).2 mC hm]
          simp [updClampSub, ht2]

theorem admit_preserves_inv (cfg : RunnerConfig) (st : ResState) (s : StepR)
    (hwf : StepWF s) (hinv : ResInv cfg st.resourceUsage) :
    ResInv cfg (admitStep cfg st s).resourceUsage := by
  unfold admitStep
  cases hchk : checkTasks cfg st s s.taskTypes [] with
  | none => exact hinv
  | some pending =>
    intro t m hm
    by_cases ht : t ∈ s.taskTypes
    · have hc := commitTasks_mem cfg s s.taskTypes st.resourceUsage t ht hwf.1 m hm
      simp only [hc]
      constructor
      · exact add_nonneg (hinv t m hm).1 (getFraction_nonneg hwf.2 t)
      · exact checkTasks_le cfg st s s.taskTypes [] pending hchk t ht m hm
    · have hc := commitTasks_not_mem cfg s s.taskTypes st.resourceUsage t ht
      simp only [hc]
      exact hinv t m hm

theorem release_preserves_inv (cfg : RunnerConfig) (st : ResState) (s : StepR)
    (hmax : ∀ p ∈ cfg.resourceConstraints, 0 ≤ p.2)
    (hwf : StepWF s) (hinv : ResInv cfg st.resourceUsage) :
    ResInv cfg (releaseStep cfg st s).resourceUsage := by
  intro t m hm
  have hm0 : (0 : ℚ) ≤ m := hmax (t, m) (lookup_some_mem hm)
  by_cases ht : t ∈ s.taskTypes
  · have hc := releaseTasks_fst_mem cfg st s s.taskTypes st.resourceUsage [] t
      ht hwf.1 m hm
    constructor
    · show 0 ≤ (releaseTasks cfg st s s.taskTypes st.resourceUsage []).1 t
      rw [hc]
      exact le_max_left _ _
    · show (releaseTasks cfg st s s.taskTypes st.resourceUsage []).1 t ≤ m
      rw [hc]
      exact max_le hm0
        (le_trans (sub_le_self _ (getFraction_nonneg hwf.2 t)) (hinv t m hm).2)
  · have hc := releaseTasks_fst_not_mem cfg st s s.taskTypes st.resourceUsage [] t ht
    constructor
    · show 0 ≤ (releaseTasks cfg st s s.taskTypes st.resourceUsage []).1 t
      rw [hc]
      exact (hinv t m hm).1
    · show (releaseTasks cfg st s s.taskTypes st.resourceUsage []).1 t ≤ m
      rw [hc]
      exact (hinv t m hm).2

theorem foldl_preserves_inv (cfg : RunnerConfig)
    (hmax : ∀ p ∈ cfg.resourceConstraints, 0 ≤ p.2) :
    ∀ (events : List REvent) (st : ResState),
      (∀ e ∈ events, StepWF (eventStep e)) →
      ResInv cfg st.resourceUsage →
      ResInv cfg (events.foldl (applyEvent cfg) st).resourceUsage := by
  intro events
  induction events with
  | nil => intro st _ hinv; exact hinv
  | cons e rest ih =>
    intro st hwf hinv
    have hwfe : StepWF (eventStep e) := hwf e (List.mem_cons_self _ _)
    have hwfr : ∀ e2 ∈ rest, StepWF (eventStep e2) :=
      fun e2 he2 => hwf e2 (List.mem_cons_of_mem _ he2)
    have hstep : ResInv cfg (applyEvent cfg st e).resourceUsage := by
      cases e with
      | reserve s => exact admit_preserves_inv cfg st s hwfe hinv
      | complete s => exact release_preserves_inv cfg st s hmax hwfe hinv
      | abortStep s => exact release_preserves_inv cfg st s hmax hwfe hinv
    exact ih (applyEvent cfg st e) hwfr hstep

/-- C1: along every sequence of admissions, completions and aborts the
runner executes, each declared task's concurrent-use accumulator
`resource_usage[t]` stays within `[0, max_concurrent[t]]`:
admission commits a step's fractional shares only after checking
`usage + fraction ≤ max_concurrent` for each of its constrained tasks,
and the clamped decrement of completion/abort never drives usage below
zero.  The hypotheses are the well-formedness the program guarantees
(`max_concurrent ≥ 0`, per-step nonduplicated tasks with non-negative
fractions). -/
theorem c1_resource_usage_invariant (cfg : RunnerConfig) (events : List REvent)
    (hmax : ∀ p ∈ cfg.resourceConstraints, 0 ≤ p.2)
    (hwf : ∀ e ∈ events, StepWF (eventStep e)) :
    ∀ t m, cfg.resourceConstraints.lookup t = some m →
      0 ≤ (runEvents cfg events).resourceUsage t ∧
      (runEvents cfg events).resourceUsage t ≤ m := by
  have hinit : ResInv cfg initialResState.resourceUsage := by
    intro t m hm
    exact ⟨le_refl 0, hmax (t, m) (lookup_some_mem hm)⟩
  exact foldl_preserves_inv cfg hmax events initialResState hwf hinit

/-- Configuration for the C1 witness: one task `cook` with
`max_concurrent 1`, one actor type. -/
def cfg1 : RunnerConfig :=
  { resourceConstraints := [("cook", 1)]
    actorRequirements := [("cook", 1)]
    qualifiedActorTypes := [("cook", ["generic"])]
    actorTypes := [("generic", 2)] }

/-- Step consuming task `cook` at fraction 1. -/
def stepCook : StepR :=
  { stepId := "c", taskTypes := ["cook"], taskFractions := [("cook", 1)] }

/-- Witness for `c1_resource_usage_invariant`: admit then complete the
`cook` step; the usage of `cook` stays in `[0, 1]`. -/
theorem c1_resource_usage_invariant_witness :
    0 ≤ (runEvents cfg1 [REvent.reserve stepCook,
        REvent.complete stepCook]).resourceUsage "cook" ∧
    (runEvents cfg1 [REvent.reserve stepCook,
        REvent.complete stepCook]).resourceUsage "cook" ≤ 1 :=
  c1_resource_usage_invariant cfg1 [.reserve stepCook, .complete stepCook]
    (by decide) (by decide) "cook" 1 rfl

mutual
/-- JSON-like program data (validate_program.py operates on parsed
JSON/YAML): strings, integers, booleans, null, arrays, and
insertion-ordered objects.  The mutual list types make the structural
recursion of `normalize_time_fields` explicit. -/
inductive JValue where
  | str (s : String)
  | int (n : Int)
  | bool (b : Bool)
  | null
  | arr (xs : JArr)
  | obj (kvs : JObj)
inductive JArr where
  | nil
  | cons (hd : JValue) (tl : JArr)
inductive JObj where
  | nil
  | cons (key : String) (val : JValue) (tl : JObj)
end

/-- The time-related field names of `normalize_time_fields`
(validate_program.py, lines 108-109). -/
def timeFieldNames : List String :=
  ["seconds", "minSeconds", "maxSeconds", "defaultSeconds",
   "optimalSeconds", "offsetSeconds", "bufferSeconds"]

/-- Python `str.isdigit()` (ASCII digits): nonempty and all digits. -/
def isDigitString (t : String) : Bool :=
  !t.isEmpty && t.toList.all Char.isDigit

/-- One character of the accumulation loop of
`parse_time_string_to_seconds` (validate_program.py, lines 76-88):
digits extend `current_number`; `h`/`m`/`s` flush it scaled by
3600/60/1; other characters are skipped. -/
def parseTimeChar : (Int × String) → Char → (Int × String)
  | (total, cur), c =>
    if c.isDigit then (total, cur.push c)
    else if c = 'h' ∨ c = 'm' ∨ c = 's' then
      if cur ≠ "" then
        (total + (cur.toNat?.getD 0 : Int) *
          (if c = 'h' then 3600 else if c = 'm' then 60 else 1), "")
      else (total, cur)
    else (total, cur)

/-- `parse_time_string_to_seconds` on a string value
(validate_program.py, lines 45-90): empty (falsy) strings give `0`,
pure digit strings parse as integer seconds, otherwise the
`h`/`m`/`s` accumulation loop runs over the stripped string. -/
def parseTimeStringToSeconds (s : String) : Int :=
  if s = "" then 0
  else
    let t := s.trim
    if isDigitString t then (t.toNat?.getD 0 : Int)
    else (t.toList.foldl parseTimeChar (0, "")).1

/-- The per-field conversion of `normalize_time_fields`
(validate_program.py, lines 110-114): a string value of a time field is
parsed to integer seconds, any non-string value passes through
unchanged (note: without recursing into it). -/
def normalizeTimeValue : JValue → JValue
  | .str s => .int (parseTimeStringToSeconds s)
  | v => v

mutual
/-- `normalize_time_fields` (validate_program.py, lines 93-122):
dictionaries are rebuilt key by key (time-named keys through
`normalizeTimeValue`, other keys recursively), lists recurse
elementwise, primitives pass through. -/
def normalizeTimeFields : JValue → JValue
  | .obj kvs => .obj (normalizeObj kvs)
  | .arr xs => .arr (normalizeArr xs)
  | v => v
def normalizeArr : JArr → JArr
  | .nil => .nil
  | .cons v tl => .cons (normalizeTimeFields v) (normalizeArr tl)
def normalizeObj : JObj → JObj
  | .nil => .nil
  | .cons k v tl =>
    if k ∈ timeFieldNames then .cons k (normalizeTimeValue v) (normalizeObj tl)
    else .cons k (normalizeTimeFields v) (normalizeObj tl)
end

theorem normalizeTimeValue_idem (v : JValue) :
    normalizeTimeValue (normalizeTimeValue v) = normalizeTimeValue v := by
  cases v <;> rfl

mutual
theorem normalizeTimeFields_idem_aux :
    ∀ v : JValue, normalizeTimeFields (normalizeTimeFields v) = normalizeTimeFields v
  | .str _ => rfl
  | .int _ => rfl
  | .bool _ => rfl
  | .null => rfl
  | .arr xs => congrArg JValue.arr (normalizeArr_idem_aux xs)
  | .obj kvs => congrArg JValue.obj (normalizeObj_idem_aux kvs)
theorem normalizeArr_idem_aux :
    ∀ xs : JArr, normalizeArr (normalizeArr xs) = normalizeArr xs
  | .nil => rfl
  | .cons v tl => by
    simp only [normalizeArr]
    rw [normalizeTimeFields_idem_aux v, normalizeArr_idem_aux tl]
theorem normalizeObj_idem_aux :
    ∀ kvs : JObj, normalizeObj (normalizeObj kvs) = normalizeObj kvs
  | .nil => rfl
  | .cons k v tl => by
    by_cases hk : k ∈ timeFieldNames
    · simp only [normalizeObj, if_pos hk]
      rw [normalizeTimeValue_idem v, normalizeObj_idem_aux tl]
    · simp only [normalizeObj, if_neg hk]
      rw [normalizeTimeFields_idem_aux v, normalizeObj_idem_aux tl]
end

/-- C9: time-field normalization is idempotent — every time-named field
that is a string becomes an integer number of seconds on the first
pass, non-string values pass through unchanged, so a second pass
changes nothing. -/
theorem c9_normalize_time_fields_idempotent (p : JValue) :
    normalizeTimeFields (normalizeTimeFields p) = normalizeTimeFields p :=
  normalizeTimeFields_idem_aux p

/-- A JSON scalar as it appears in duration dicts and time fields. -/
inductive JScalar where
  | str (s : String)
  | int (n : Int)
deriving DecidableEq, Repr

/-- Python `str(…)` of an optional string, as f-strings render it
(`None` prints as `"None"`). -/
def optStr : Option String → String
  | some s => s
  | none => "None"

/-- Python `int(…)` coercion of a scalar (numeric strings assumed). -/
def scalarToInt : JScalar → Int
  | .int n => n
  | .str s => s.toInt?.getD 0

/-- `parse_time_string_to_seconds` applied to a scalar
(validate_program.py, lines 353-398): integers pass through, strings go
through the string parser. -/
def parseTimeScalarToSeconds : JScalar → Int
  | .int n => n
  | .str s => parseTimeStringToSeconds s

/-- A step's `duration` value: absent, a time string, an integer, or a
dict of scalar entries. -/
inductive VDur where
  | missing
  | str (s : String)
  | int (n : Int)
  | dict (kvs : List (String × JScalar))
deriving DecidableEq, Repr

/-- `parse_duration_to_seconds` (validate_program.py, lines 401-427):
falsy durations (empty dict/string, 0) give 0; a dict is read through
its `seconds`, `minutes` or `hours` entry; strings and numbers go
through `parse_time_string_to_seconds`. -/
def parseDurationToSeconds : VDur → Int
  | .missing => parseTimeStringToSeconds "0s"
  | .str s => parseTimeStringToSeconds s
  | .int n => n
  | .dict kvs =>
    if kvs.isEmpty then 0
    else
      match kvs.lookup "seconds" with
      | some v => parseTimeScalarToSeconds v
      | none =>
        match kvs.lookup "minutes" with
        | some v => scalarToInt v * 60
        | none =>
          match kvs.lookup "hours" with
          | some v => scalarToInt v * 3600
          | none => 0

/-- A start-trigger dict as the validator reads it: `type`, `stepId`
(`none` models an absent key), `offsetSeconds` (`.get(…, 0)`), and
`event` (`.get(…, "end")` at use sites). -/
structure VTrigger where
  type : Option String := none
  stepId : Option String := none
  offsetSeconds : Int := 0
  event : Option String := none
deriving DecidableEq, Repr

/-- A step dict as `perform_additional_validations` and the overlap
check read it.  Buffer task-resource names model
`task_resource.get("name")` (which may be `None`). -/
structure VStep where
  stepId : Option String := none
  name : Option String := none
  startTrigger : VTrigger := {}
  duration : VDur := .missing
  task : Option String := none
  preBufferTasks : List String := []
  preBufferTaskResourceNames : List (Option String) := []
  postBufferTasks : List String := []
  postBufferTaskResourceNames : List (Option String) := []
deriving DecidableEq, Repr

/-- A track dict: display name, optional template reference, steps. -/
structure VTrack where
  name : Option String := none
  templateId : Option String := none
  steps : List VStep := []
deriving DecidableEq, Repr

/-- A resource-constraint entry; only its `task` key matters to the
task-declaration check. -/
structure VConstraint where
  task : Option String := none
deriving DecidableEq, Repr

/-- A program document as the validator reads it.  `actorsPresent`
models `"actors" in program`; `trackTemplates` holds the templates'
`.get("templateId")` values. -/
structure VProgram where
  tracks : List VTrack := []
  resourceConstraints : List VConstraint := []
  actorsPresent : Bool := false
  environment : Option String := none
  trackTemplates : List (Option String) := []
deriving DecidableEq, Repr

/-- Insert-or-replace into the insertion-ordered
`program_map = {c["task"]: c for c in program_constraints}`
(environment_loader.py, line 255); a repeated key keeps its position
and takes the later value, as a Python dict comprehension does. -/
def upsertConstraint (m : List (Option String × VConstraint))
    (k : Option String) (c : VConstraint) : List (Option String × VConstraint) :=
  match m with
  | [] => [(k, c)]
  | (k2, c2) :: rest =>
    if k2 = k then (k2, c) :: rest else (k2, c2) :: upsertConstraint rest k c

/-- `EnvironmentLoader.merge_constraints` (environment_loader.py,
lines 229-272): with no environment the program constraints are
returned; otherwise environment constraints come first, each replaced
by the program constraint of the same task when one exists, and the
remaining program constraints are appended in order. -/
def mergeConstraints (progCs : List VConstraint) :
    Option (List VConstraint) → List VConstraint
  | none => progCs
  | some envCs =>
    let progMap := progCs.foldl (fun m c => upsertConstraint m c.task c) []
    let acc := envCs.foldl
      (fun (acc : List VConstraint × List (Option String × VConstraint)) ec =>
        match acc.2.lookup ec.task with
        | some pc => (acc.1 ++ [pc], acc.2.filter (fun q => ¬ q.1 = ec.task))
        | none => (acc.1 ++ [ec], acc.2))
      ([], progMap)
    acc.1 ++ acc.2.map (fun q => q.2)

/-- `load_resource_constraints` (environment_loader.py, lines 287-306),
with the environment directory's contents passed as an explicit
catalog; an unknown environment id behaves like the loader's
`FileNotFoundError` path and yields the program constraints alone. -/
def loadResourceConstraintsV (p : VProgram)
    (catalog : List (String × List VConstraint)) : List VConstraint :=
  mergeConstraints p.resourceConstraints
    (p.environment.bind (fun e => catalog.lookup e))

/-- First-occurrence deduplication; models iterating a Python dict or a
set built by successive `add` calls in insertion order. -/
def dedupList {α : Type} [DecidableEq α] (l : List α) : List α :=
  l.foldl (fun acc x => if x ∈ acc then acc else acc ++ [x]) []

/-- All step ids of the program, in track/definition order
(`step.get("stepId")`). -/
def allStepIds (p : VProgram) : List (Option String) :=
  p.tracks.flatMap (fun tr => tr.steps.map (fun st => st.stepId))

/-- The duplicate-id errors of `perform_additional_validations`
(validate_program.py, lines 159-187).  Python's message quotes the id;
the quotes are elided here. -/
def duplicateStepIdErrors (p : VProgram) : List String :=
  (dedupList (allStepIds p)).filterMap (fun sid =>
    if 1 < (allStepIds p).count sid then
      some ("Duplicate step ID " ++ optStr sid ++ " found " ++
        toString ((allStepIds p).count sid) ++ " times")
    else none)

/-- Step ids referenced from `afterStep`/`afterStepWithBuffer` triggers
that carry a `stepId` key (validate_program.py, lines 176-182). -/
def referencedStepIds (p : VProgram) : List (Option String) :=
  dedupList (p.tracks.flatMap (fun tr => tr.steps.filterMap (fun st =>
    if (st.startTrigger.type = some "afterStep" ∨
        st.startTrigger.type = some "afterStepWithBuffer") ∧
        st.startTrigger.stepId.isSome
    then some st.startTrigger.stepId else none)))

/-- Dangling-reference errors (validate_program.py, lines 189-192). -/
def danglingRefErrors (p : VProgram) : List String :=
  (referencedStepIds p).filterMap (fun r =>
    if r ∈ allStepIds p then none
    else some ("Referenced step ID " ++ optStr r ++
      " does not exist in any track"))

/-- The task universe collected from steps and buffers
(validate_program.py, lines 195-225): the step's `task` key, then
pre-buffer `tasks`, post-buffer `tasks`, pre-buffer `taskResources`
names, post-buffer `taskResources` names. -/
def usedTaskTypes (p : VProgram) : List (Option String) :=
  dedupList (p.tracks.flatMap (fun tr => tr.steps.flatMap (fun st =>
    (match st.task with | some t => [some t] | none => []) ++
    st.preBufferTasks.map some ++ st.postBufferTasks.map some ++
    st.preBufferTaskResourceNames ++ st.postBufferTaskResourceNames)))

/-- The "task used but not declared" errors (validate_program.py,
lines 241-249): reported only in strict mode or when the program has
neither an `actors` field nor an `environment` reference. -/
def undeclaredTaskErrors (p : VProgram)
    (catalog : List (String × List VConstraint)) (strict : Bool) : List String :=
  if strict || (!p.actorsPresent && p.environment.isNone) then
    (usedTaskTypes p).filterMap (fun t =>
      if t ∈ (loadResourceConstraintsV p catalog).map (fun c => c.task) then none
      else some ("Task " ++ optStr t ++
        " is used in steps but not defined in resourceConstraints"))
  else []

/-- The unknown-environment error (validate_program.py, lines 251-262),
with the loader's directory as the explicit catalog. -/
def environmentErrors (p : VProgram)
    (catalog : List (String × List VConstraint)) : List String :=
  match p.environment with
  | none => []
  | some eid =>
    if (catalog.lookup eid).isSome then []
    else ["Referenced environment " ++ eid ++ " not found"]

/-- Unknown-template errors (validate_program.py, lines 264-282). -/
def templateRefErrors (p : VProgram) : List String :=
  (dedupList (p.tracks.filterMap (fun tr => tr.templateId))).filterMap (fun r =>
    if some r ∈ p.trackTemplates then none
    else some ("Referenced template ID " ++ r ++
      " does not exist in trackTemplates"))

/-- `parse_duration_to_seconds(step.get("duration", "0s"))`. -/
def stepDurationSeconds (st : VStep) : Int :=
  parseDurationToSeconds (match st.duration with | .missing => .str "0s" | d => d)

/-- Linear scan for a step by id (`s.get("stepId") == ref_id`). -/
def findStepById (r : String) (steps : List VStep) : Option VStep :=
  steps.find? (fun s => s.stepId == some r)

/-- Cross-track referenced-step search of `calculate_step_start_time`
(validate_program.py, lines 470-479): the first track containing the id
supplies both the step and its track's step list. -/
def findStepAnyTrack (p : VProgram) (r : String) : Option (VStep × List VStep) :=
  match p.tracks.find? (fun tr => (findStepById r tr.steps).isSome) with
  | none => none
  | some tr =>
    match findStepById r tr.steps with
    | some s => some (s, tr.steps)
    | none => none

/-- `calculate_step_start_time` (validate_program.py, lines 430-501),
with explicit recursion fuel: Python recurses unboundedly and would
crash on cyclic references; on acyclic programs any fuel larger than
the reference-chain length computes the same value, and the callers
below pass `total step count + 1`.  `programStart` yields
`max(0, offsetSeconds)`; `afterStep`/`afterStepWithBuffer` resolve the
referenced step (current track first, falling back to all tracks,
defaulting to 0 when absent or falsy) and add its start (or end, per
`event`) and the offset, clamped at 0; unknown trigger types yield 0. -/
def calculateStepStartTime (p : VProgram) :
    Nat → VStep → List VStep → Int
  | 0, _, _ => 0
  | fuel+1, st, trackSteps =>
    if st.startTrigger.type.getD "programStart" = "programStart" then
      max 0 st.startTrigger.offsetSeconds
    else if st.startTrigger.type.getD "programStart" = "afterStep" ∨
        st.startTrigger.type.getD "programStart" = "afterStepWithBuffer" then
      match st.startTrigger.stepId with
      | none => 0
      | some r =>
        if r = "" then 0
        else
          match (match findStepById r trackSteps with
                 | some s => some (s, trackSteps)
                 | none => findStepAnyTrack p r) with
          | none => 0
          | some (refStep, refTrackSteps) =>
            max 0
              ((if st.startTrigger.event.getD "end" = "start" then
                  calculateStepStartTime p fuel refStep refTrackSteps
                else
                  calculateStepStartTime p fuel refStep refTrackSteps +
                    stepDurationSeconds refStep) +
                st.startTrigger.offsetSeconds)
    else 0

/-- A computed step timing of `validate_track_step_overlaps`. -/
structure STiming where
  name : String
  startTime : Int
  endTime : Int
deriving DecidableEq, Repr

/-- `step.get("name", step_id)` as rendered in overlap messages. -/
def timingName (st : VStep) : String :=
  match st.name with
  | some n => n
  | none => optStr st.stepId

/-- Stable insertion modelling
`step_timings.sort(key=lambda x: x["startTime"])`. -/
def insertByStart (x : STiming) : List STiming → List STiming
  | [] => [x]
  | y :: ys =>
    if x.startTime ≤ y.startTime then x :: y :: ys else y :: insertByStart x ys

/-- Stable sort of the timings by start time. -/
def sortByStart : List STiming → List STiming
  | [] => []
  | x :: xs => insertByStart x (sortByStart xs)

/-- The adjacent-overlap report of `validate_track_step_overlaps`
(validate_program.py, lines 336-348): an error whenever a step's end
exceeds the next-starting step's start (quotes of the Python message
elided). -/
def adjacentOverlapErrors (trackName : String) : List STiming → List String
  | [] => []
  | [_] => []
  | a :: b :: rest =>
    (if b.startTime < a.endTime then
      ["Track " ++ trackName ++ ": Steps " ++ a.name ++ " and " ++ b.name ++
        " overlap by " ++ toString (a.endTime - b.startTime) ++
        " seconds. Step " ++ a.name ++ " ends at " ++ toString a.endTime ++
        "s, but step " ++ b.name ++ " starts at " ++ toString b.startTime ++ "s."]
     else []) ++ adjacentOverlapErrors trackName (b :: rest)

/-- `track.get("name", f"Track {track_idx + 1}")`. -/
def trackDisplayName (idx : Nat) (tr : VTrack) : String :=
  match tr.name with
  | some n => n
  | none => "Track " ++ toString (idx + 1)

/-- Total number of steps, used as recursion fuel. -/
def totalStepCount (p : VProgram) : Nat :=
  (p.tracks.map (fun tr => tr.steps.length)).sum

/-- `validate_track_step_overlaps` (validate_program.py, lines
291-350): per track (skipping 0/1-step tracks), compute each step's
symbolic start and end, sort by start, and report adjacent overlaps. -/
def validateTrackStepOverlaps (p : VProgram) : List String :=
  (p.tracks.enum).flatMap (fun q =>
    if q.2.steps.length ≤ 1 then []
    else
      adjacentOverlapErrors (trackDisplayName q.1 q.2)
        (sortByStart (q.2.steps.map (fun st =>
          { name := timingName st
            startTime := calculateStepStartTime p (totalStepCount p + 1) st q.2.steps
            endTime := calculateStepStartTime p (totalStepCount p + 1) st q.2.steps +
              stepDurationSeconds st }))))

/-- `perform_additional_validations` (validate_program.py, lines
148-288): duplicate ids, dangling step references, undeclared tasks,
unknown environment, unknown templates, and intra-track overlaps, in
source order. -/
def performAdditionalValidations (p : VProgram)
    (catalog : List (String × List VConstraint)) (strict : Bool) : List String :=
  duplicateStepIdErrors p ++ danglingRefErrors p ++
  undeclaredTaskErrors p catalog strict ++ environmentErrors p catalog ++
  templateRefErrors p ++ validateTrackStepOverlaps p

/-- A step whose Variable duration has min 10, max 20 and the given
`defaultSeconds`. -/
def step7 (d : Int) : VStep :=
  { stepId := some "s1"
    name := some "Step 1"
    startTrigger := { type := some "programStart" }
    duration := .dict [("type", .str "variable"), ("minSeconds", .int 10),
      ("maxSeconds", .int 20), ("defaultSeconds", .int d)] }

/-- A single-track single-step program around `step7`. -/
def prog7 (d : Int) : VProgram :=
  { tracks := [{ name := some "Main", steps := [step7 d] }] }

/-- C7 amended: the validator's semantic pass performs no
`min ≤ default ≤ max` check at all — for every value of
`defaultSeconds` (inside or outside `[min, max]`) it returns no error
for the step. -/
theorem c7_no_duration_bounds_validation (d : Int) :
    performAdditionalValidations (prog7 d) [] false = [] := rfl

/-- C7 counterexample: the program whose Variable duration has
min 10 ≤ max 20 but default 50 > max gets **no** error from the
semantic pass, contradicting the claim that it returns at least one
error for that step. -/
theorem c7_out_of_bounds_default_unreported :
    (prog7 50).tracks.map (fun tr => tr.steps.map (fun st => st.duration)) =
      [[.dict [("type", .str "variable"), ("minSeconds", .int 10),
        ("maxSeconds", .int 20), ("defaultSeconds", .int 50)]]] ∧
    ¬ ((50 : Int) ≤ 20) ∧
    performAdditionalValidations (prog7 50) [] false = [] := by
  refine ⟨rfl, by decide, rfl⟩

/-- `ℚ` extended with `+∞`, modelling Python floats together with
`float("inf")` as the planner uses them (indefinite max durations,
missing `maxConcurrent` limits). -/
inductive QInf where
  | fin (q : ℚ)
  | inf
deriving DecidableEq, Repr

/-- `a + x` for a finite left operand (as in `start_time + duration`). -/
def QInf.addFin (a : ℚ) : QInf → QInf
  | .fin q => .fin (a + q)
  | .inf => .inf

/-- Strict `<` on `ℚ ∪ {+∞}`. -/
def QInf.ltB : QInf → QInf → Bool
  | .fin a, .fin b => a < b
  | .fin _, .inf => true
  | .inf, _ => false

/-- Non-strict `≤` on `ℚ ∪ {+∞}`. -/
def QInf.leB : QInf → QInf → Bool
  | .fin a, .fin b => a ≤ b
  | .inf, .fin _ => false
  | _, .inf => true

/-- A planner trigger dict (program_planner.py `startTrigger` values):
`type`, `stepId`, `offsetSeconds`, `event`.  A `stepId` key present
with value `None` and an absent key behave identically in every
planner read (`if step_id:` / `.get("stepId")`), so both are `none`. -/
structure PTrig where
  type : Option String := none
  stepId : Option String := none
  offsetSeconds : Int := 0
  event : Option String := none
deriving DecidableEq, Repr

/-- A legacy `trigger` dict (program_planner.py, lines 525-542):
`type`, `stepId`, and the `on` key. -/
structure PLegacyTrig where
  type : Option String := none
  stepId : Option String := none
  onStep : Option String := none
deriving DecidableEq, Repr

/-- A planner duration value: absent, a plain number, or a dict with a
`type` string and numeric entries (`seconds`, `minSeconds`,
`maxSeconds`, `optimalSeconds`, `defaultSeconds`). -/
inductive PDur where
  | missing
  | num (n : ℚ)
  | dict (type : Option String) (kvs : List (String × ℚ))
deriving DecidableEq, Repr

/-- A step dict as the planner reads and writes it: `id` (the planner's
key field), `stepId` (used by `_fix_overlapping_steps`), `name`,
`priority` (`.get("priority", 100)`), `resources`, `duration`,
`startTrigger` (`none` = key absent), the legacy `trigger` and
`after` keys, `task`, and `description` (written on padding steps). -/
structure PStep where
  id : Option String := none
  stepId : Option String := none
  name : Option String := none
  description : Option String := none
  priority : Int := 100
  resources : List String := []
  duration : PDur := .missing
  startTrigger : Option PTrig := none
  trigger : Option PLegacyTrig := none
  after : List (String × String) := []
  task : Option String := none
deriving DecidableEq, Repr

/-- A track dict: `id`, the `startTime` key written by staggering
(`none` = absent, read back through `.get("startTime", 0)`), and
`steps`. -/
structure PTrack where
  id : Option String := none
  startTime : Option ℚ := none
  steps : List PStep := []
deriving DecidableEq, Repr

/-- A program document as the planner transforms it.  Top-level fields
other than `tracks` are never modified by `optimize_schedule`
(see `preserveRequiredFields`), so only `tracks` is modelled. -/
structure PProgram where
  tracks : List PTrack := []
deriving DecidableEq, Repr

/-- An environment as the planner consumes it:
`task ↦ rc.get("maxConcurrent", float("inf"))` and the same for
equipment ids (program_planner.py, lines 420-434). -/
structure PEnv where
  resourceConstraints : List (String × QInf) := []
  equipment : List (String × QInf) := []
deriving DecidableEq, Repr

/-- First pass of `_fix_overlapping_steps` (program_planner.py, lines
522-546) on one step: convert a legacy `trigger` dict to a canonical
`startTrigger` (deleting `trigger` in all cases), then default a
missing `startTrigger` to `programStart`. -/
def fixStepPass1 (st : PStep) : PStep :=
  let st1 :=
    match st.trigger with
    | some old =>
      let conv : Option PTrig :=
        if old.type = some "programStart" then some { type := some "programStart" }
        else if old.type = some "manual" then some { type := some "manual" }
        else if old.type = some "afterStep" ∨ old.type = some "stepComplete" then
          some { type := some "afterStep", stepId := old.stepId }
        else if old.onStep.isSome then
          some { type := some "afterStep", stepId := old.onStep }
        else none
      { st with
          startTrigger := match conv with | some t => some t | none => st.startTrigger
          trigger := none }
    | none => st
  if st1.startTrigger.isNone then
    { st1 with startTrigger := some { type := some "programStart" } }
  else st1

/-- Generic insert-or-replace into an insertion-ordered dict. -/
def upsertAL {β : Type} (m : List (Option String × β)) (k : Option String)
    (v : β) : List (Option String × β) :=
  match m with
  | [] => [(k, v)]
  | (k2, v2) :: rest =>
    if k2 = k then (k2, v) :: rest else (k2, v2) :: upsertAL rest k v

/-- `step_id_to_index = {step.get("stepId"): i for i, step in
enumerate(steps)}` (program_planner.py, line 550): insertion-ordered,
a repeated id keeps its position and takes the later index. -/
def stepIdToIndex (steps : List PStep) : List (Option String × Nat) :=
  steps.enum.foldl (fun m q => upsertAL m q.2.stepId q.1) []

/-- `list.insert(i, x)` with a non-negative clamped index. -/
def insertAtClamped {α : Type} (l : List α) (i : Nat) (x : α) : List α :=
  l.take i ++ x :: l.drop i

/-- The trigger dict `{"type": "afterStep", "stepId": sid}` written by
`_fix_overlapping_steps`. -/
def afterStepTrig (sid : Option String) : PTrig :=
  { type := some "afterStep", stepId := sid }

/-- `step["startTrigger"] = t`. -/
def setStartTrigger (st : PStep) (t : PTrig) : PStep :=
  { st with startTrigger := some t }

/-- `prev_step.get("stepId")` for the step before index `i`. -/
def prevStepId (steps : List PStep) (i : Nat) : Option String :=
  (steps[i-1]?).bind (fun q => q.stepId)

/-- Second pass of `_fix_overlapping_steps` (program_planner.py, lines
548-618), modelled with Python's live-list iterator semantics: the
cursor `i` advances over the mutating list until it falls off the end
(the list length never changes, so `fuel = length` bounds the loop).
`afterStep`-style triggers with an unknown `stepId` are repointed to
the previous step (or `programStart` for the first step); a reference
at `ref_index ≥ i` is moved before the current step
(`steps.pop(ref_index); steps.insert(i-1, …)`, where Python's
`insert(-1, …)` for `i = 0` lands before the last element), rebuilding
the index map; a non-first step with a `programStart` or `manual`
trigger is rewritten to follow its predecessor. -/
def fixPass2 : Nat → List PStep → List (Option String × Nat) → Nat → List PStep
  | 0, steps, _, _ => steps
  | fuel+1, steps, idMap, i =>
    match steps[i]? with
    | none => steps
    | some step =>
      let trig := step.startTrigger.getD {}
      if trig.type = some "afterStep" ∨ trig.type = some "afterStepWithBuffer" then
        match idMap.lookup trig.stepId with
        | none =>
          if 0 < i then
            fixPass2 fuel
              (steps.set i (setStartTrigger step (afterStepTrig (prevStepId steps i))))
              idMap (i+1)
          else
            fixPass2 fuel
              (steps.set i (setStartTrigger step { type := some "programStart" }))
              idMap (i+1)
        | some refIdx =>
          if i ≤ refIdx then
            match steps[refIdx]? with
            | none => fixPass2 fuel steps idMap (i+1)
            | some refStep =>
              let removed := steps.eraseIdx refIdx
              let steps2 := insertAtClamped removed
                (if i = 0 then removed.length - 1 else i - 1) refStep
              fixPass2 fuel steps2 (stepIdToIndex steps2) (i+1)
          else fixPass2 fuel steps idMap (i+1)
      else if 0 < i ∧ trig.type = some "programStart" then
        fixPass2 fuel
          (steps.set i (setStartTrigger step (afterStepTrig (prevStepId steps i))))
          idMap (i+1)
      else if 0 < i ∧ trig.type = some "manual" then
        fixPass2 fuel
          (steps.set i (setStartTrigger step (afterStepTrig (prevStepId steps i))))
          idMap (i+1)
      else fixPass2 fuel steps idMap (i+1)

/-- `_fix_overlapping_steps` on one track: tracks with at most one step
are skipped entirely (program_planner.py, line 519). -/
def fixTrack (steps : List PStep) : List PStep :=
  if steps.length ≤ 1 then steps
  else
    let s1 := steps.map fixStepPass1
    fixPass2 s1.length s1 (stepIdToIndex s1) 0

/-- `_fix_overlapping_steps` (program_planner.py, lines 510-618). -/
def fixOverlappingSteps (p : PProgram) : PProgram :=
  { p with tracks := p.tracks.map (fun tr => { tr with steps := fixTrack tr.steps }) }

/-- `ProgramPlanner._extract_steps` (program_planner.py, lines
301-318): a dict keyed by `track.get("id", "")` of dicts keyed by
`step.get("id", "")` — repeated keys overwrite (a repeated track id
replaces the whole inner dict). -/
def extractSteps (p : PProgram) : List (Option String × List (Option String × PStep)) :=
  p.tracks.foldl (fun m tr =>
    upsertAL m (some (tr.id.getD ""))
      (tr.steps.foldl (fun sm st => upsertAL sm (some (st.id.getD "")) st) [])) []

/-- `duration_data.get(key, default)` on the numeric entries. -/
def durLookup (kvs : List (String × ℚ)) (k : String) (dflt : ℚ) : ℚ :=
  (kvs.lookup k).getD dflt

/-- `Step.min_duration` (program_planner.py, lines 163-193): `seconds`
for fixed, `minSeconds` (default 0) for variable, 0 otherwise;
a plain numeric duration is its own min.  A missing `duration` key
yields the empty dict, whose `type` is `None` (the indefinite branch). -/
def stepMinDuration (st : PStep) : ℚ :=
  match st.duration with
  | .dict t kvs =>
    if t = some "fixed" then durLookup kvs "seconds" 0
    else if t = some "variable" then durLookup kvs "minSeconds" 0
    else 0
  | .num n => n
  | .missing => 0

/-- `Step.max_duration`: `seconds` for fixed, `maxSeconds` (default 0)
for variable, `float("inf")` for indefinite/unknown types and for a
missing duration (which reads as the empty dict). -/
def stepMaxDuration (st : PStep) : QInf :=
  match st.duration with
  | .dict t kvs =>
    if t = some "fixed" then .fin (durLookup kvs "seconds" 0)
    else if t = some "variable" then .fin (durLookup kvs "maxSeconds" 0)
    else .inf
  | .num n => .fin n
  | .missing => .inf

/-- `Step.optimal_duration` / `Step.calculate_duration`: `seconds` for
fixed; for variable `optimalSeconds`, else `defaultSeconds`, else the
min/max midpoint.  For indefinite/unknown dict types the source stores
the duration dict itself and `float()` on it would raise; those steps
are modelled as 0 (no claim exercises them). -/
def stepOptimalDuration (st : PStep) : ℚ :=
  match st.duration with
  | .dict t kvs =>
    if t = some "fixed" then durLookup kvs "seconds" 0
    else if t = some "variable" then
      match kvs.lookup "optimalSeconds" with
      | some v => v
      | none =>
        match kvs.lookup "defaultSeconds" with
        | some v => v
        | none => (durLookup kvs "minSeconds" 0 + durLookup kvs "maxSeconds" 0) / 2
    else 0
  | .num n => n
  | .missing => 0

/-- `Step._extract_dependencies` (program_planner.py, lines 195-222):
an `afterStep`/`afterStepWithBuffer` trigger with a truthy `stepId`
contributes `(own track, stepId)`; legacy `after` entries follow. -/
def stepDeps (trackId : String) (st : PStep) : List (String × String) :=
  (match st.startTrigger with
   | some trig =>
     if trig.type = some "afterStep" ∨ trig.type = some "afterStepWithBuffer" then
       match trig.stepId with
       | some sid => if sid = "" then [] else [(trackId, sid)]
       | none => []
     else []
   | none => []) ++ st.after

/-- `ProgramPlanner._can_start` (program_planner.py, lines 644-675):
all dependencies completed, and the previous step of the same track
(by key order) completed. -/
def pCanStart (ex : List (Option String × List (Option String × PStep)))
    (trackId : String) (stepId : String) (st : PStep)
    (completed : List (String × String)) : Bool :=
  (stepDeps trackId st).all (fun d => d ∈ completed) &&
  (let keys := ((ex.lookup (some trackId)).getD []).map (fun q => q.1)
   match keys.findIdx? (fun k => k = some stepId) with
   | none => true
   | some 0 => true
   | some (j+1) =>
     match keys[j]? with
     | some (some prevKey) => (trackId, prevKey) ∈ completed
     | _ => true)

/-- `ProgramPlanner._calculate_start_time` (program_planner.py, lines
677-711): start from the **first** track's `startTime` (the source
reads `tracks[0]` for every step), then push past each dependency's
end and past the previous step of the same track. -/
def pCalcStartTime (p : PProgram)
    (ex : List (Option String × List (Option String × PStep)))
    (startTimes : List ((String × String) × ℚ))
    (trackId : String) (stepId : String) (st : PStep) : ℚ :=
  let base : ℚ := ((p.tracks.head?.bind (fun tr => tr.startTime)).getD 0)
  let afterDeps := (stepDeps trackId st).foldl (fun acc d =>
    let depStart := (startTimes.lookup d).getD 0
    let depOpt := match ((ex.lookup (some d.1)).getD []).lookup (some d.2) with
      | some dst => stepOptimalDuration dst
      | none => 0
    max acc (depStart + depOpt)) base
  let keys := ((ex.lookup (some trackId)).getD []).map (fun q => q.1)
  match keys.findIdx? (fun k => k = some stepId) with
  | none => afterDeps
  | some 0 => afterDeps
  | some (j+1) =>
    match keys[j]? with
    | some (some prevKey) =>
      let prevStart := (startTimes.lookup (trackId, prevKey)).getD 0
      let prevOpt := match ((ex.lookup (some trackId)).getD []).lookup (some prevKey) with
        | some pst => stepOptimalDuration pst
        | none => 0
      max afterDeps (prevStart + prevOpt)
    | _ => afterDeps

/-- A `ResourceUsage.usage_profile`: insertion-ordered
`time point ↦ (resource ↦ count delta)`. -/
abbrev UsageProf := List (QInf × List (String × Int))

/-- Add `dv` to key `k` of a delta dict, appending absent keys. -/
def bumpAssocInt (m : List (String × Int)) (k : String) (dv : Int) :
    List (String × Int) :=
  match m with
  | [] => [(k, dv)]
  | (k2, v2) :: rest =>
    if k2 = k then (k2, v2 + dv) :: rest else (k2, v2) :: bumpAssocInt rest k dv

/-- `if t not in self.usage_profile: self.usage_profile[t] = {}`. -/
def ensureTime (prof : UsageProf) (t : QInf) : UsageProf :=
  if (prof.lookup t).isSome then prof else prof ++ [(t, [])]

/-- Apply a delta at an existing time point. -/
def bumpResAt (prof : UsageProf) (t : QInf) (rid : String) (dv : Int) : UsageProf :=
  prof.map (fun q => if q.1 = t then (q.1, bumpAssocInt q.2 rid dv) else q)

/-- `ResourceUsage.add_usage` (program_planner.py, lines 62-85): ensure
both time points exist, `+1` at start, `-1` at end. -/
def addUsage (prof : UsageProf) (s e : QInf) (rid : String) : UsageProf :=
  bumpResAt (bumpResAt (ensureTime (ensureTime prof s) e) s rid 1) e rid (-1)

/-- Sorted insertion of a time point (`sorted(keys)`). -/
def insertQInf (x : QInf) : List QInf → List QInf
  | [] => [x]
  | y :: ys => if QInf.leB x y then x :: y :: ys else y :: insertQInf x ys

/-- `sorted(self.usage_profile.keys())` (keys are unique). -/
def sortQInf : List QInf → List QInf
  | [] => []
  | x :: xs => insertQInf x (sortQInf xs)

/-- Adjacent pairs of the sorted time points
(`for i in range(len(time_points) - 1)`). -/
def profilePairs : List QInf → List (QInf × QInf)
  | [] => []
  | [_] => []
  | a :: b :: rest => (a, b) :: profilePairs (b :: rest)

/-- Append a segment to a resource's list in the result dict. -/
def appendSeg (res : List (String × List (QInf × QInf × Int))) (rid : String)
    (seg : QInf × QInf × Int) : List (String × List (QInf × QInf × Int)) :=
  match res with
  | [] => [(rid, [seg])]
  | (k, segs) :: rest =>
    if k = rid then (k, segs ++ [seg]) :: rest else (k, segs) :: appendSeg rest rid seg

/-- `ResourceUsage.calculate_usage_profile` (program_planner.py, lines
87-122): walk the sorted time points; at each point fold the point's
deltas into the running usage, emitting a `(t, next, usage)` segment
for every resource whose updated usage is positive. -/
def calcProfile (prof : UsageProf) : List (String × List (QInf × QInf × Int)) :=
  ((profilePairs (sortQInf (prof.map (fun q => q.1)))).foldl
    (fun (acc : List (String × Int) × List (String × List (QInf × QInf × Int))) tp =>
      ((prof.lookup tp.1).getD []).foldl
        (fun acc2 d =>
          let usage2 := bumpAssocInt acc2.1 d.1 d.2
          if 0 < (usage2.lookup d.1).getD 0 then
            (usage2, appendSeg acc2.2 d.1 (tp.1, tp.2, (usage2.lookup d.1).getD 0))
          else (usage2, acc2.2))
        acc)
    ([], [])).2

/-- A detected bottleneck `(resource_id, start, end, count)`. -/
structure BNeck where
  rid : String
  sTime : QInf
  eTime : QInf
  count : Int
deriving DecidableEq, Repr

/-- Descending lexicographic key `(count, start)` of
`find_bottlenecks`' final sort. -/
def bneckKeyLt (a b : BNeck) : Bool :=
  a.count < b.count ∨ (a.count = b.count ∧ QInf.ltB a.sTime b.sTime)

/-- Stable descending insertion (`sorted(…, reverse=True)`). -/
def insertDescB (x : BNeck) : List BNeck → List BNeck
  | [] => [x]
  | y :: ys => if bneckKeyLt y x then x :: y :: ys else y :: insertDescB x ys

/-- Stable descending sort by `(count, start)`. -/
def sortDescByCountStart : List BNeck → List BNeck
  | [] => []
  | x :: xs => insertDescB x (sortDescByCountStart xs)

/-- `ResourceUsage.find_bottlenecks` (program_planner.py, lines
124-144): all segments with `count ≥ threshold`, sorted descending by
`(count, start)`. -/
def findBottlenecksProf (profile : List (String × List (QInf × QInf × Int)))
    (threshold : Int) : List BNeck :=
  sortDescByCountStart (profile.flatMap (fun q => q.2.filterMap (fun seg =>
    if threshold ≤ seg.2.2 then some ⟨q.1, seg.1, seg.2.1, seg.2.2⟩ else none)))

/-- The environment-limit bottleneck scan of `optimize_schedule`
(program_planner.py, lines 417-460): with no environment (or with both
constraint lists empty/falsy) there are none; otherwise each profile
segment whose count exceeds the task limit, then the equipment limit,
is reported. -/
def envBottlenecks (env : Option PEnv)
    (profile : List (String × List (QInf × QInf × Int))) : List BNeck :=
  match env with
  | none => []
  | some e =>
    if e.resourceConstraints.isEmpty && e.equipment.isEmpty then []
    else
      profile.flatMap (fun q =>
        (match e.resourceConstraints.lookup q.1 with
         | some lim => q.2.filterMap (fun seg =>
             if QInf.ltB lim (.fin (seg.2.2 : ℚ)) then
               some ⟨q.1, seg.1, seg.2.1, seg.2.2⟩
             else none)
         | none => []) ++
        (match e.equipment.lookup q.1 with
         | some lim => q.2.filterMap (fun seg =>
             if QInf.ltB lim (.fin (seg.2.2 : ℚ)) then
               some ⟨q.1, seg.1, seg.2.1, seg.2.2⟩
             else none)
         | none => []))

/-- The bottleneck union of `optimize_schedule` (program_planner.py,
lines 465-490): first the environment bottlenecks whose resource also
appears in the max-duration scenario, then the remaining max-scenario
bottlenecks, then the remaining environment bottlenecks, deduplicating
by resource id after the first pass. -/
def combineBottlenecks (bs maxBs : List BNeck) : List BNeck :=
  let step1 := bs.foldl (fun acc b =>
    if maxBs.any (fun mb => mb.rid = b.rid) then acc ++ [b] else acc) []
  let seen1 := (bs.filter (fun b => maxBs.any (fun mb => mb.rid = b.rid))).map
    (fun b => b.rid)
  let q2 := maxBs.foldl
    (fun (acc : List BNeck × List String) mb =>
      if mb.rid ∈ seen1 ∨ mb.rid ∈ acc.2 then acc
      else (acc.1 ++ [mb], acc.2 ++ [mb.rid])) ([], [])
  let q3 := bs.foldl
    (fun (acc : List BNeck × List String) b =>
      if b.rid ∈ seen1 ∨ b.rid ∈ q2.2 ∨ b.rid ∈ acc.2 then acc
      else (acc.1 ++ [b], acc.2 ++ [b.rid])) ([], [])
  step1 ++ q2.1 ++ q3.1

/-- The mutable result of `simulate_execution`: scheduled start times
and the three usage recorders (optimal, min, max durations). -/
structure SimResult where
  startTimes : List ((String × String) × ℚ) := []
  usage : UsageProf := []
  minUsage : UsageProf := []
  maxUsage : UsageProf := []
deriving DecidableEq, Repr

/-- Stable insertion for
`steps_to_start.sort(key=lambda x: x[2].priority)`. -/
def insertTripByPriority (x : String × String × PStep) :
    List (String × String × PStep) → List (String × String × PStep)
  | [] => [x]
  | y :: ys =>
    if x.2.2.priority ≤ y.2.2.priority then x :: y :: ys
    else y :: insertTripByPriority x ys

/-- Stable sort of the startable steps by priority. -/
def sortTripByPriority : List (String × String × PStep) →
    List (String × String × PStep)
  | [] => []
  | x :: xs => insertTripByPriority x (sortTripByPriority xs)

/-- Schedule one startable step (the body of the scheduling loop,
program_planner.py, lines 358-392): record its start, mark it
completed, and add its resource and task usages to the optimal, min
and max recorders in source order. -/
def scheduleOne (p : PProgram)
    (ex : List (Option String × List (Option String × PStep)))
    (acc : SimResult × List (String × String)) (trip : String × String × PStep) :
    SimResult × List (String × String) :=
  let st := trip.2.2
  let start := pCalcStartTime p ex acc.1.startTimes trip.1 trip.2.1 st
  let res1 := { acc.1 with startTimes := acc.1.startTimes ++ [((trip.1, trip.2.1), start)] }
  let res2 := { res1 with usage := st.resources.foldl (fun pr r => addUsage pr (.fin start) (.fin (start + stepOptimalDuration st)) r) res1.usage }
  let res3 :=
    match st.task with
    | some task => { res2 with usage := addUsage res2.usage (.fin start) (.fin (start + stepOptimalDuration st)) task }
    | none => res2
  let res4 := { res3 with minUsage := st.resources.foldl (fun pr r => addUsage pr (.fin start) (.fin (start + stepMinDuration st)) r) res3.minUsage, maxUsage := st.resources.foldl (fun pr r => addUsage pr (.fin start) (QInf.addFin start (stepMaxDuration st)) r) res3.maxUsage }
  let res5 :=
    match st.task with
    | some task => { res4 with minUsage := addUsage res4.minUsage (.fin start) (.fin (start + stepMinDuration st)) task, maxUsage := addUsage res4.maxUsage (.fin start) (QInf.addFin start (stepMaxDuration st)) task }
    | none => res4
  (res5, acc.2 ++ [(trip.1, trip.2.1)])

/-- The `while True` scheduling loop of `simulate_execution`
(program_planner.py, lines 336-394), with fuel: each round collects the
startable unscheduled steps in extraction order, stops when none can
start, sorts them by priority (stable) and schedules them in order.
Every non-final round schedules at least one step, so
`total steps + 1` fuel always reaches the fixed point. -/
def simLoop (p : PProgram)
    (ex : List (Option String × List (Option String × PStep))) :
    Nat → SimResult → List (String × String) → SimResult
  | 0, res, _ => res
  | fuel+1, res, completed =>
    let toStart := ex.flatMap (fun tq => tq.2.filterMap (fun sq =>
      let tid := (tq.1).getD ""
      let sid := (sq.1).getD ""
      if (tid, sid) ∈ completed then none
      else if pCanStart ex tid sid sq.2 completed then some (tid, sid, sq.2)
      else none))
    if toStart.isEmpty then res
    else
      let next := (sortTripByPriority toStart).foldl (scheduleOne p ex) (res, completed)
      simLoop p ex fuel next.1 next.2

/-- Total number of extracted steps (fuel bound). -/
def extractedCount (ex : List (Option String × List (Option String × PStep))) : Nat :=
  (ex.map (fun q => q.2.length)).sum

/-- `ProgramPlanner.simulate_execution` (program_planner.py, lines
320-394). -/
def simulateExecution (p : PProgram) : SimResult :=
  simLoop p (extractSteps p) (extractedCount (extractSteps p) + 1) {} []

/-- Whether a track's steps touch resource `r`
(`track_resources.intersection(bottleneck_resources)`). -/
def trackUsesResource (tr : PTrack) (r : String) : Bool :=
  tr.steps.any (fun st => r ∈ st.resources)

/-- Average step priority of a track (program_planner.py, lines
750-757); 100 for an empty track. -/
def trackAvgPriority (tr : PTrack) : ℚ :=
  if tr.steps.isEmpty then 100
  else ((tr.steps.map (fun st => st.priority)).sum : ℚ) / (tr.steps.length : ℚ)

/-- Stable insertion of a track index by its priority key. -/
def insertIdxByPrio (prio : Nat → ℚ) (x : Nat) : List Nat → List Nat
  | [] => [x]
  | y :: ys => if prio x ≤ prio y then x :: y :: ys else y :: insertIdxByPrio prio x ys

/-- Stable sort of track indices by priority
(`track_indices.sort(key=lambda idx: track_priorities[idx])`). -/
def sortIdxByPrio (prio : Nat → ℚ) : List Nat → List Nat
  | [] => []
  | x :: xs => insertIdxByPrio prio x (sortIdxByPrio prio xs)

/-- `track["startTime"] = track.get("startTime", 0) + j * 5`. -/
def staggerTrack (p : PProgram) (i : Nat) (j : Nat) : PProgram :=
  match p.tracks[i]? with
  | some tr =>
    { p with tracks := p.tracks.set i { tr with startTime := some (tr.startTime.getD 0 + (j : ℚ) * 5) } }
  | none => p

/-- `ProgramPlanner._stagger_track_starts` (program_planner.py, lines
713-781): with no bottlenecks, return immediately; else for each
bottleneck resource (first-appearance order), sort the tracks using it
by average priority (stable), skip the highest-priority one, and add
`j · 5` seconds to the `j`-th track's `startTime`.  Track priorities
and resource usage depend only on steps, which this pass never
modifies, so recomputing them per resource matches the source's
precomputed tables. -/
def staggerTrackStarts (p : PProgram) (bottlenecks : List BNeck) : PProgram :=
  if bottlenecks.isEmpty then p
  else
    (dedupList (bottlenecks.map (fun b => b.rid))).foldl (fun prog r =>
      ((sortIdxByPrio (fun idx => trackAvgPriority ((prog.tracks[idx]?).getD {}))
          (prog.tracks.enum.filterMap (fun q =>
            if trackUsesResource q.2 r then some q.1 else none))).enum.foldl
        (fun pr jq => if jq.1 = 0 then pr else staggerTrack pr jq.2 jq.1) prog)) p

/-- Stable insertion of `(index, priority)` pairs by priority
(`bottleneck_steps.sort(key=lambda x: x[1])`). -/
def insertPairByPriority (x : Nat × Int) : List (Nat × Int) → List (Nat × Int)
  | [] => [x]
  | y :: ys => if x.2 ≤ y.2 then x :: y :: ys else y :: insertPairByPriority x ys

/-- Stable sort of `(index, priority)` pairs by priority. -/
def sortPairsByPriority : List (Nat × Int) → List (Nat × Int)
  | [] => []
  | x :: xs => insertPairByPriority x (sortPairsByPriority xs)

/-- The synthetic 2-second padding step inserted before a bottleneck
step (program_planner.py, lines 820-827).  Note it carries only an
`id` — no `stepId` and **no** `startTrigger`. -/
def paddingStep (trackId : String) (idx : Nat) : PStep :=
  { id := some ("padding_" ++ trackId ++ "_" ++ toString idx)
    name := some "Resource contention padding"
    description := some "Added automatically to reduce resource contention"
    duration := .num 2
    resources := [] }

/-- `ProgramPlanner._stagger_step_starts` (program_planner.py, lines
783-842): with no bottlenecks, return immediately; else per track,
collect the indices of steps touching a bottleneck resource, sort them
by priority, and insert a padding step before each non-first one.  The
source's index-shifting reassignment rebinds the name being iterated —
Python's iterator keeps the original list — so the insertions use the
original indices, as modelled here. -/
def staggerTrackSteps (resources : List String) (tr : PTrack) : PTrack :=
  let bsteps := tr.steps.enum.filterMap (fun q =>
    if q.2.resources.any (fun r => r ∈ resources) then some (q.1, q.2.priority)
    else none)
  let indices := (sortPairsByPriority bsteps).map (fun q => q.1)
  { tr with steps := indices.foldl (fun acc idx => if idx = 0 then acc else insertAtClamped acc idx (paddingStep (tr.id.getD "") idx)) tr.steps }

/-- The track map of `_stagger_step_starts`: no-op on an empty
bottleneck list, else pad every track against the bottleneck
resources. -/
def staggerStepStarts (p : PProgram) (bottlenecks : List BNeck) : PProgram :=
  if bottlenecks.isEmpty then p
  else
    { p with tracks := p.tracks.map (staggerTrackSteps (dedupList (bottlenecks.map (fun b => b.rid)))) }

/-- `ProgramPlanner._preserve_required_fields` (program_planner.py,
lines 844-878) is a no-op: by line 410 `self.program` has been
reassigned to the very `optimized_program` dict being passed in, so
`field in self.program and field not in program` is always false, and
the `resourceConstraints` deletion requires `"resourceConstraints" not
in self.program` yet `"resourceConstraints" in program` — unsatisfiable
for the same dict. -/
def preserveRequiredFields (p : PProgram) : PProgram := p

/-- The combined bottleneck list `optimize_schedule` computes for a
(already trigger-normalized) program: environment-limit violations of
the optimal-duration profile combined with the threshold-2 bottlenecks
of the max-duration profile (program_planner.py, lines 413-490). -/
def plannerBottlenecks (env : Option PEnv) (p1 : PProgram) : List BNeck :=
  combineBottlenecks
    (envBottlenecks env (calcProfile (simulateExecution p1).usage))
    (findBottlenecksProf (calcProfile (simulateExecution p1).maxUsage) 2)

/-- `ProgramPlanner.optimize_schedule` (program_planner.py, lines
396-508): normalize triggers and repair references, simulate, find
bottlenecks, stagger track starts, insert padding steps, preserve
required fields. -/
def optimizeSchedule (env : Option PEnv) (p : PProgram) : PProgram :=
  preserveRequiredFields
    (staggerStepStarts
      (staggerTrackStarts (fixOverlappingSteps p)
        (plannerBottlenecks env (fixOverlappingSteps p)))
      (plannerBottlenecks env (fixOverlappingSteps p)))

theorem staggerTrackStarts_nil (p : PProgram) : staggerTrackStarts p [] = p := rfl

theorem staggerStepStarts_nil (p : PProgram) : staggerStepStarts p [] = p := rfl

/-- C8 amended: when the planner's own simulation of the normalized
program finds no remaining bottlenecks, `optimize_schedule` staggers no
track start and inserts no padding step — its output is exactly the
trigger-normalized program.  (It is *not* a fixed point up to metadata
in general: the normalization pass itself may still rewrite steps, see
the counterexample.) -/
theorem c8_no_bottlenecks_no_staggering (env : Option PEnv) (p : PProgram)
    (h : plannerBottlenecks env (fixOverlappingSteps p) = []) :
    optimizeSchedule env p = fixOverlappingSteps p := by
  unfold optimizeSchedule
  rw [h, staggerTrackStarts_nil, staggerStepStarts_nil]
  rfl

/-- Witness for `c8_no_bottlenecks_no_staggering` at the empty
program. -/
theorem c8_no_bottlenecks_no_staggering_witness :
    optimizeSchedule none {} = fixOverlappingSteps {} :=
  c8_no_bottlenecks_no_staggering none {} rfl

/-- Counterexample program for C8, track 1: step `A`, fixed 3 s, using
resource `r`. -/
def stepA : PStep :=
  { id := some "A", stepId := some "A", name := some "A",
    duration := .num 3, resources := ["r"] }

/-- Track 2, first step `C`: 1 s, no resources. -/
def stepC : PStep :=
  { id := some "C", stepId := some "C", name := some "C",
    duration := .num 1, resources := [] }

/-- Track 2, second step `B`: 3 s, using resource `r`. -/
def stepB : PStep :=
  { id := some "B", stepId := some "B", name := some "B",
    duration := .num 3, resources := ["r"] }

/-- The C8 input program: tracks `t1 = [A]` and `t2 = [C, B]`, no step
carries a `startTrigger` yet. -/
def prog8 : PProgram :=
  { tracks := [{ id := some "t1", steps := [stepA] },
               { id := some "t2", steps := [stepC, stepB] }] }

/-- `C` after normalization: explicit `programStart` trigger. -/
def stepCfixed : PStep :=
  { stepC with startTrigger := some { type := some "programStart" } }

/-- `B` after normalization: follows `C`. -/
def stepBfixed : PStep :=
  { stepB with startTrigger := some (afterStepTrig (some "C")) }

/-- The padding step the first planner run inserts before `B`. -/
def pad821 : PStep := paddingStep "t2" 1

/-- The planner's output on `prog8`: `t2` staggered by 5 s and padded
before `B`. -/
def p8out : PProgram :=
  { tracks := [{ id := some "t1", steps := [stepA] },
               { id := some "t2", startTime := some 5,
                 steps := [stepCfixed, pad821, stepBfixed] }] }

/-- The second planner run's output: identical except the padding step
has gained `startTrigger = afterStep C`. -/
def p8out2 : PProgram :=
  { tracks := [{ id := some "t1", steps := [stepA] },
               { id := some "t2", startTime := some 5,
                 steps := [stepCfixed,
                   { pad821 with startTrigger := some (afterStepTrig (some "C")) },
                   stepBfixed] }] }

/-- `prog8` after trigger normalization (no staggering yet). -/
def p8fixA : PProgram :=
  { tracks := [{ id := some "t1", steps := [stepA] },
               { id := some "t2", steps := [stepCfixed, stepBfixed] }] }

/-- `p8fixA` with track `t2` staggered by 5 s. -/
def p8stagA : PProgram :=
  { tracks := [{ id := some "t1", steps := [stepA] },
               { id := some "t2", startTime := some 5,
                 steps := [stepCfixed, stepBfixed] }] }

/-- The raw usage profile the first simulation records for `r`
(`A` over `[0,3)`, `B` over `[1,4)`). -/
def u8 : UsageProf :=
  [(.fin 0, [("r", 1)]), (.fin 3, [("r", -1)]),
   (.fin 1, [("r", 1)]), (.fin 4, [("r", -1)])]

/-- The first simulation's result on `p8fixA`. -/
def sim8 : SimResult :=
  ⟨[(("t1", "A"), 0), (("t2", "C"), 0), (("t2", "B"), 1)], u8, u8, u8⟩

/-- The bottleneck the first run detects: `r` doubly used on `[1,3)`. -/
def bk8 : BNeck := ⟨"r", .fin 1, .fin 3, 2⟩

/-- The raw usage profile of the second simulation (`A` over `[0,3)`,
`B` over `[3,6)` after the padding delay). -/
def u82 : UsageProf :=
  [(.fin 0, [("r", 1)]), (.fin 3, [("r", 0)]), (.fin 6, [("r", -1)])]

/-- The second simulation's result on `p8out2`. -/
def sim82 : SimResult :=
  ⟨[(("t1", "A"), 0), (("t2", "C"), 0), (("t2", "padding_t2_1"), 1),
    (("t2", "B"), 3)], u82, u82, u82⟩

set_option maxHeartbeats 2000000 in
/-- C8 counterexample.  `p8out = optimize_schedule(prog8)` is the
planner's output; the planner's own simulation of it finds no
remaining bottlenecks; yet running `optimize_schedule` on it yields
`p8out2 ≠ p8out` beyond metadata: the padding step inserted by the
first run carries no `startTrigger`, so the second run's
trigger-normalization pass rewrites it to `afterStep C` — the planner
is not a fixed point up to metadata in the stable case. -/
theorem c8_second_run_rewrites_padding :
    optimizeSchedule none prog8 = p8out ∧
    plannerBottlenecks none (fixOverlappingSteps p8out) = [] ∧
    optimizeSchedule none p8out = p8out2 ∧
    p8out2.tracks.map (fun tr => tr.steps.map (fun st => st.startTrigger)) ≠
      p8out.tracks.map (fun tr => tr.steps.map (fun st => st.startTrigger)) := by
  have hfix1 : fixOverlappingSteps prog8 = p8fixA := by
    norm_num +decide [beq_eq_decide, fixOverlappingSteps, fixTrack, fixPass2, fixStepPass1,
      stepIdToIndex, upsertAL, setStartTrigger, afterStepTrig, prevStepId,
      insertAtClamped, List.lookup, List.enum, List.enumFrom, prog8, stepA,
      stepC, stepB, p8fixA, stepCfixed, stepBfixed]
  have hsim1 : simulateExecution p8fixA = sim8 := by
    norm_num +decide [beq_eq_decide, simulateExecution, simLoop, scheduleOne, pCalcStartTime,
      pCanStart, stepDeps, sortTripByPriority, insertTripByPriority,
      extractSteps, extractedCount, upsertAL, addUsage, ensureTime, bumpResAt,
      bumpAssocInt, stepOptimalDuration, stepMinDuration, stepMaxDuration,
      durLookup, QInf.addFin, List.lookup, List.findIdx?, p8fixA, stepA,
      stepCfixed, stepBfixed, stepC, stepB, afterStepTrig, sim8, u8]
  have hprof1 : calcProfile u8 =
      [("r", [(.fin 0, .fin 1, 1), (.fin 1, .fin 3, 2), (.fin 3, .fin 4, 1)])] := by
    norm_num +decide [beq_eq_decide, calcProfile, profilePairs, sortQInf, insertQInf,
      QInf.leB, appendSeg, bumpAssocInt, List.lookup, u8]
  have hmaxb1 : findBottlenecksProf
      [("r", [(.fin 0, .fin 1, 1), (.fin 1, .fin 3, 2), (.fin 3, .fin 4, 1)])] 2 =
      [bk8] := by
    norm_num +decide [beq_eq_decide, findBottlenecksProf, sortDescByCountStart, insertDescB,
      bneckKeyLt, QInf.ltB, bk8]
  have hbot1 : plannerBottlenecks none p8fixA = [bk8] := by
    unfold plannerBottlenecks
    rw [hsim1]
    show combineBottlenecks (envBottlenecks none (calcProfile u8))
      (findBottlenecksProf (calcProfile u8) 2) = [bk8]
    rw [hprof1, hmaxb1]
    norm_num +decide [beq_eq_decide, envBottlenecks, combineBottlenecks, bk8]
  have hsetT : ∀ a b x : PTrack, [a, b].set 1 x = [a, x] := fun _ _ _ => rfl
  have hgetT1 : ∀ a b : PTrack, [a, b][1]? = some b := fun _ _ => rfl
  have hgetT0 : ∀ a b : PTrack, [a, b][0]? = some a := fun _ _ => rfl
  have hgetE1 : ∀ a b : PTrack, [a, b][1] = b := fun _ _ => rfl
  have hgetE0 : ∀ a b : PTrack, [a, b][0] = a := fun _ _ => rfl
  have hstag1 : staggerTrackStarts p8fixA [bk8] = p8stagA := by
    norm_num +decide [beq_eq_decide, hsetT, hgetT1, hgetT0, hgetE1, hgetE0,
      staggerTrackStarts, staggerTrack, sortIdxByPrio,
      insertIdxByPrio, trackAvgPriority, trackUsesResource, dedupList,
      List.enum, List.enumFrom, bk8, p8fixA, p8stagA, stepA, stepCfixed,
      stepBfixed, stepC, stepB, afterStepTrig]
  have htake1 : ∀ a b : PStep, List.take 1 [a, b] = [a] := fun _ _ => rfl
  have hdrop1 : ∀ a b : PStep, List.drop 1 [a, b] = [b] := fun _ _ => rfl
  have hpad1 : staggerStepStarts p8stagA [bk8] = p8out := by
    norm_num +decide [beq_eq_decide, htake1, hdrop1, staggerStepStarts, staggerTrackSteps,
      sortPairsByPriority, insertPairByPriority, paddingStep, insertAtClamped,
      dedupList, List.enum, List.enumFrom, bk8, p8stagA, p8out, stepA,
      stepCfixed, stepBfixed, stepC, stepB, pad821, afterStepTrig]
  have h1 : optimizeSchedule none prog8 = p8out := by
    unfold optimizeSchedule
    rw [hfix1, hbot1, hstag1, hpad1]
    rfl
  have hfix2 : fixOverlappingSteps p8out = p8out2 := by
    norm_num +decide [beq_eq_decide, fixOverlappingSteps, fixTrack, fixPass2, fixStepPass1,
      stepIdToIndex, upsertAL, setStartTrigger, afterStepTrig, prevStepId,
      insertAtClamped, paddingStep, pad821, List.lookup, List.enum,
      List.enumFrom, p8out, p8out2, stepA, stepC, stepB, stepCfixed,
      stepBfixed]
  have hsim2 : simulateExecution p8out2 = sim82 := by
    norm_num +decide [beq_eq_decide, simulateExecution, simLoop, scheduleOne, pCalcStartTime,
      pCanStart, stepDeps, sortTripByPriority, insertTripByPriority,
      extractSteps, extractedCount, upsertAL, addUsage, ensureTime, bumpResAt,
      bumpAssocInt, stepOptimalDuration, stepMinDuration, stepMaxDuration,
      durLookup, QInf.addFin, paddingStep, pad821, List.lookup, List.findIdx?,
      p8out2, stepA, stepCfixed, stepBfixed, stepC, stepB, afterStepTrig,
      sim82, u82]
  have hprof2 : calcProfile u82 =
      [("r", [(.fin 0, .fin 3, 1), (.fin 3, .fin 6, 1)])] := by
    norm_num +decide [beq_eq_decide, calcProfile, profilePairs, sortQInf, insertQInf,
      QInf.leB, appendSeg, bumpAssocInt, List.lookup, u82]
  have hbot2 : plannerBottlenecks none p8out2 = [] := by
    unfold plannerBottlenecks
    rw [hsim2]
    show combineBottlenecks (envBottlenecks none (calcProfile u82))
      (findBottlenecksProf (calcProfile u82) 2) = []
    rw [hprof2]
    norm_num +decide [beq_eq_decide, envBottlenecks, combineBottlenecks, findBottlenecksProf,
      sortDescByCountStart, insertDescB, bneckKeyLt, QInf.ltB]
  have h3 : optimizeSchedule none p8out = p8out2 := by
    unfold optimizeSchedule
    rw [hfix2, hbot2, staggerTrackStarts_nil, staggerStepStarts_nil]
    rfl
  refine ⟨h1, by rw [hfix2]; exact hbot2, h3, by decide⟩

end Rhylthyme
